import Mathlib

/-!
Shallow embedding of the search layer of the `history-agent-app` repository
(`deep_search_agent.py` and `daily_schedule_processor.py`), together with
theorems settling the specification claims about it.

Modelling conventions:

* A pandas cell is `Cell.na` (NaN/missing), `Cell.vstr s` (a Python `str`
  value `s`), or `Cell.vother s` (a non-string value whose `str()` rendering
  is `s`).  `deep_search_agent.py` distinguishes exactly these three cases
  (`pd.isna`, `isinstance(..., str)`, `str(...)`).
* A dataframe is its filename, its column list and its rows (cell lists
  aligned with the column list), mirroring the `self.dataframes` dict whose
  iteration order is the model's list order.
* Python `needle in hay` on strings is `seqContains`; `.lower()` is
  `pyLower` (character-wise ASCII lowering; the data is ASCII).
* `fuzz.ratio` (fuzzywuzzy) is `int(round(100 * r))` where
  `r = 2*M/(len1+len2)`; with the python-Levenshtein backend
  `M` is the length of a longest common subsequence
  (`ratio = (lensum - indel_distance)/lensum = 2*LCS/lensum`).  We model `M`
  as the LCS length (`lcsLen`) and Python 3 `round` as round-half-to-even
  (`roundHalfEven`); on the concrete strings used below the difflib backend
  computes the same value.
* Date/time parsing (`dateutil.parser.parse`, `datetime.strptime`,
  `pd.to_datetime`) is third-party; dates are modelled as an abstract `Int`
  timeline and the parsers as explicit `String → Option Int`
  (resp. `Cell → Option Int`) oracles that the theorems quantify over.
-/

/-- One pandas cell: missing, a string value, or a non-string value carrying
its `str()` rendering. -/
inductive Cell where
  | na
  | vstr (s : String)
  | vother (s : String)
deriving DecidableEq, Repr

/-- Python `str(cell)`: `str(nan) = "nan"`, strings unchanged, other values
their rendering. -/
def Cell.text : Cell → String
  | Cell.na => "nan"
  | Cell.vstr s => s
  | Cell.vother s => s

/-- Whether a cell is missing (`pd.isna`). -/
def Cell.isNa : Cell → Bool
  | Cell.na => true
  | _ => false

/-- Character-list equality test for the leading segment: `hasPfx n h` is
true when `n` occurs at the very start of `h`. -/
def hasPfx : List Char → List Char → Bool
  | [], _ => true
  | _ :: _, [] => false
  | a :: as, b :: bs => a == b && hasPfx as bs

/-- Python substring containment `needle in hay` on the character lists. -/
def seqContains (needle : List Char) : List Char → Bool
  | [] => needle.isEmpty
  | b :: bs => hasPfx needle (b :: bs) || seqContains needle bs

/-- Python `needle in hay` on strings. -/
def strContains (hay needle : String) : Bool :=
  seqContains needle.data hay.data

/-- Python `s.lower()` (character-wise; the repository data is ASCII). -/
def pyLower (s : String) : String :=
  ⟨s.data.map Char.toLower⟩

/-- Longest-common-subsequence length against a fixed tail computation
`f bs = lcs of the previous left list with bs`; structural in the right
list. -/
def lcsWith (f : List Char → Nat) (a : Char) : List Char → Nat
  | [] => 0
  | b :: bs => if a = b then f bs + 1 else max (f (b :: bs)) (lcsWith f a bs)

/-- Longest-common-subsequence length of two character lists (structural
recursion, so it evaluates inside the kernel). -/
def lcsLen : List Char → List Char → Nat
  | [] => fun _ => 0
  | a :: as => lcsWith (lcsLen as) a

/-- Round-half-to-even of the fraction `num/den` (Python 3 `round`), for
`den ≠ 0`. -/
def roundHalfEven (num den : Nat) : Nat :=
  let q := num / den
  let r := num % den
  if 2 * r < den then q
  else if 2 * r > den then q + 1
  else if q % 2 = 0 then q else q + 1

/-- Model of `fuzz.ratio(s1, s2)`: `int(round(100 * 2*M/(len1+len2)))` with
`M = lcsLen`, and `100` on two empty strings. -/
def fuzzRatio (s1 s2 : String) : Nat :=
  let total := s1.data.length + s2.data.length
  if total = 0 then 100
  else roundHalfEven (200 * lcsLen s1.data s2.data) total

/-- One loaded CSV dataset: its filename, its columns, and its rows (cells
aligned with the column list). -/
structure DataFrame where
  name : String
  cols : List String
  rows : List (List Cell)
deriving DecidableEq, Repr

/-- Cell lookup `row[col]` given the dataframe's column list. -/
def lookupCell (cols : List String) (cells : List Cell) (c : String) : Cell :=
  match (cols.zip cells).find? (fun p => p.1 = c) with
  | some p => p.2
  | none => Cell.na

/-- Model of `search_columns = columns if columns else df.columns` followed
by `[col for col in search_columns if col in df.columns]` (Python treats
`None` and `[]` as false). -/
def effectiveCols (columns : Option (List String)) (dfCols : List String) :
    List String :=
  (match columns with
    | some cs => if cs = [] then dfCols else cs
    | none => dfCols).filter (fun c => dfCols.contains c)

/-- A search result: one row's cells plus the metadata fields
(`file`, `matching_value`, and `match_score` for fuzzy results) that
`exact_search`/`fuzzy_search` add to the record dict. -/
structure Record where
  file : String
  cols : List String
  cells : List Cell
  matching_value : String
  match_score : Option Nat
deriving DecidableEq, Repr

/-- The inner column loop of `exact_search`: walk the searched columns in
order, skip NaN cells, compare (case-folded unless case-sensitive), stop at
the first containing column and return its original cell text. -/
def exactRowMatch (qcmp : String) (caseSensitive : Bool) (cols : List String)
    (cells : List Cell) : List String → Option String
  | [] => none
  | c :: rest =>
    match lookupCell cols cells c with
    | Cell.na => exactRowMatch qcmp caseSensitive cols cells rest
    | cell =>
      let cv := cell.text
      let cmp := if caseSensitive then cv else pyLower cv
      if strContains cmp qcmp then some cv
      else exactRowMatch qcmp caseSensitive cols cells rest

/-- The per-row record produced by `exact_search`, when the row matches. -/
def exactRowRecord (q : String) (caseSensitive : Bool)
    (columns : Option (List String)) (df : DataFrame) (cells : List Cell) :
    Option Record :=
  let sc := effectiveCols columns df.cols
  let qcmp := if caseSensitive then q else pyLower q
  match exactRowMatch qcmp caseSensitive df.cols cells sc with
  | some mv => some ⟨df.name, df.cols, cells, mv, none⟩
  | none => none

/-- Model of `DeepSearchAgent.exact_search` restricted to one dataframe
(the body of the `for file_name, df in self.dataframes.items()` loop). -/
def exactSearchDF (q : String) (caseSensitive : Bool)
    (columns : Option (List String)) (df : DataFrame) : List Record :=
  if (effectiveCols columns df.cols) = [] then []
  else df.rows.filterMap (exactRowRecord q caseSensitive columns df)

/-- Model of `DeepSearchAgent.exact_search` over all loaded dataframes. -/
def exactSearch (dfs : List DataFrame) (q : String) (caseSensitive : Bool)
    (columns : Option (List String)) : List Record :=
  (dfs.map (exactSearchDF q caseSensitive columns)).flatten

/-- The running state of the inner column loop of `fuzzy_search`
(`match_found`, `highest_score`, `matching_value`). -/
structure FuzzyState where
  found : Bool
  highest : Nat
  mv : String
deriving DecidableEq, Repr

/-- The inner column loop of `fuzzy_search`: skip NaN and non-string cells,
score the lower-cased cell against the lower-cased query, and record a new
best only when the score is strictly above both the threshold and the
running best. -/
def fuzzyRowLoop (qlow : String) (threshold : Nat) (cols : List String)
    (cells : List Cell) : List String → FuzzyState → FuzzyState
  | [], st => st
  | c :: rest, st =>
    match lookupCell cols cells c with
    | Cell.vstr s =>
      let score := fuzzRatio qlow (pyLower s)
      if score > threshold && score > st.highest then
        fuzzyRowLoop qlow threshold cols cells rest ⟨true, score, s⟩
      else
        fuzzyRowLoop qlow threshold cols cells rest st
    | _ => fuzzyRowLoop qlow threshold cols cells rest st

/-- The per-row record produced by `fuzzy_search`, when the row matches. -/
def fuzzyRowRecord (q : String) (threshold : Nat)
    (columns : Option (List String)) (df : DataFrame) (cells : List Cell) :
    Option Record :=
  let sc := effectiveCols columns df.cols
  let st := fuzzyRowLoop (pyLower q) threshold df.cols cells sc ⟨false, 0, ""⟩
  if st.found then some ⟨df.name, df.cols, cells, st.mv, some st.highest⟩
  else none

/-- Model of `DeepSearchAgent.fuzzy_search` restricted to one dataframe. -/
def fuzzySearchDF (q : String) (threshold : Nat)
    (columns : Option (List String)) (df : DataFrame) : List Record :=
  if (effectiveCols columns df.cols) = [] then []
  else df.rows.filterMap (fuzzyRowRecord q threshold columns df)

/-- Model of `DeepSearchAgent.fuzzy_search` over all loaded dataframes. -/
def fuzzySearch (dfs : List DataFrame) (q : String) (threshold : Nat)
    (columns : Option (List String)) : List Record :=
  (dfs.map (fuzzySearchDF q threshold columns)).flatten

/-- Whether one searched column matches in `exact_search`: the cell is not
NaN and its (case-folded unless case-sensitive) text contains the prepared
query. -/
def colMatches (qcmp : String) (caseSensitive : Bool) (cols : List String)
    (cells : List Cell) (c : String) : Bool :=
  let cell := lookupCell cols cells c
  !cell.isNa &&
    strContains (if caseSensitive then cell.text else pyLower cell.text) qcmp

/-- The per-column (score, cell value) pairs that `fuzzy_search` examines in
a row: string-typed cells of the searched columns, in column order. -/
def fuzzyScores (qlow : String) (cols : List String) (cells : List Cell)
    (sc : List String) : List (Nat × String) :=
  sc.filterMap fun c =>
    match lookupCell cols cells c with
    | Cell.vstr s => some (fuzzRatio qlow (pyLower s), s)
    | _ => none

/-- The fuzzy column loop expressed on the (score, value) pairs alone. -/
def pairLoop (threshold : Nat) :
    List (Nat × String) → FuzzyState → FuzzyState
  | [], st => st
  | p :: ps, st =>
    if p.1 > threshold && p.1 > st.highest then
      pairLoop threshold ps ⟨true, p.1, p.2⟩
    else pairLoop threshold ps st

/-- The fuzzy column loop after the threshold test has been discharged:
keep the first strict improvement of the running maximum. -/
def maxLoop : List (Nat × String) → FuzzyState → FuzzyState
  | [], st => st
  | p :: ps, st =>
    if p.1 > st.highest then maxLoop ps ⟨true, p.1, p.2⟩ else maxLoop ps st

/-- The above-threshold (score, value) pairs of a row, in column order. -/
def rowAbove (q : String) (threshold : Nat) (columns : Option (List String))
    (df : DataFrame) (cells : List Cell) : List (Nat × String) :=
  (fuzzyScores (pyLower q) df.cols cells
      (effectiveCols columns df.cols)).filter (fun p => threshold < p.1)

/-- A single-column dataset whose only cell strictly contains the query
"ab"; used against claim C1. -/
def subDF : DataFrame := ⟨"sub.csv", ["A"], [[Cell.vstr "abzzzz"]]⟩

/-- A two-row dataset with cells "Anna Wong" and "anna wong " (note the
trailing space), as in claim C2. -/
def annaDF : DataFrame :=
  ⟨"clients.csv", ["Name"],
    [[Cell.vstr "Anna Wong"], [Cell.vstr "anna wong "]]⟩

/-- Modelled from the spec's words for claim C3: a row is included in the
fuzzy results iff some searched column's (non-missing) cell scores strictly
above the threshold under the similarity ratio of its text against the
query.  This is the claim's inclusion predicate, to be compared with the
code's `fuzzyRowRecord`. -/
def specFuzzyRowIncluded (q : String) (threshold : Nat)
    (columns : Option (List String)) (df : DataFrame) (cells : List Cell) :
    Bool :=
  (effectiveCols columns df.cols).any fun c =>
    let cell := lookupCell df.cols cells c
    !cell.isNa &&
      decide (threshold < fuzzRatio (pyLower q) (pyLower cell.text))

/-- A dataset whose only cell is a numeric (non-string) value rendered
"123"; used against claim C3. -/
def numDF : DataFrame := ⟨"nums.csv", ["N"], [[Cell.vother "123"]]⟩

/-- A dataset with two string columns scoring 100 and 89 against the query
"anna"; used to witness the amended C3. -/
def twoColDF : DataFrame :=
  ⟨"s.csv", ["A", "B"], [[Cell.vstr "anna", Cell.vstr "annax"]]⟩

/-- The date parsers of `_parse_date`, abstracted: `generic` models
`dateutil.parser.parse` and `formats` models the fixed ordered list of
`datetime.strptime` formats; a parser returns `none` where the library call
raises.  Dates live on an abstract `Int` timeline. -/
structure DateParser where
  generic : String → Option Int
  formats : List (String → Option Int)

/-- Try the format parsers in order, as the `for fmt in formats` loop of
`_parse_date` does. -/
def firstParse : List (String → Option Int) → String → Option Int
  | [], _ => none
  | f :: fs, v =>
    match f v with
    | some d => some d
    | none => firstParse fs v

/-- Model of `DeepSearchAgent._parse_date`: try the generic parser, then
the explicit formats in order; `none` models the final `raise ValueError`
(which every caller catches, silently skipping the cell). -/
def DateParser.parse (P : DateParser) (v : String) : Option Int :=
  match P.generic v with
  | some d => some d
  | none => firstParse P.formats v

/-- The values of one column, in row order (`df[column]`). -/
def colValues (df : DataFrame) (c : String) : List Cell :=
  df.rows.map (fun cells => lookupCell df.cols cells c)

/-- Auto-detection test of `date_range_search`: some of the first five
non-null values of the column is a string that `_parse_date` accepts
(`df[column].dropna().head(5)` with `isinstance(val, str) and
self._is_date(val)`). -/
def isDateCandidateCol (P : DateParser) (df : DataFrame) (c : String) :
    Bool :=
  (((colValues df c).filter (fun cell => !cell.isNa)).take 5).any fun cell =>
    match cell with
    | Cell.vstr s => (P.parse s).isSome
    | _ => false

/-- The candidate date columns of `date_range_search`: the explicitly given
ones restricted to existing columns, or (when none are given — Python
treats `None` and `[]` as false) the auto-detected ones in column order. -/
def potentialDateCols (P : DateParser) (dateCols : Option (List String))
    (df : DataFrame) : List String :=
  match dateCols with
  | none => df.cols.filter (isDateCandidateCol P df)
  | some dcs =>
    if dcs = [] then df.cols.filter (isDateCandidateCol P df)
    else dcs.filter (fun c => df.cols.contains c)

/-- The inclusive range test `start_dt <= date_value <= end_dt`; a missing
bound models `datetime.min` / `datetime.max`. -/
def inRange (sd ed : Option Int) (d : Int) : Bool :=
  (match sd with
    | none => true
    | some s => decide (s ≤ d)) &&
  (match ed with
    | none => true
    | some e => decide (d ≤ e))

/-- The per-row test of `date_range_search`: some candidate column's
stringified value is neither "nan" (case-folded) nor empty, parses, and
falls in range; parse failures are silently skipped. -/
def rowDateFound (P : DateParser) (pdcols : List String) (sd ed : Option Int)
    (cols : List String) (cells : List Cell) : Bool :=
  pdcols.any fun c =>
    let cv := (lookupCell cols cells c).text
    if pyLower cv = "nan" || cv = "" then false
    else
      match P.parse cv with
      | some d => inRange sd ed d
      | none => false

/-- One matched row of `date_range_search`: its positional index
(`_row_index`) and all columns stringified. -/
structure RowMatch where
  idx : Nat
  fields : List (String × String)
deriving DecidableEq, Repr

/-- The stringified row dict `{column: str(row[column])}`. -/
def rowMatchFields (df : DataFrame) (cells : List Cell) :
    List (String × String) :=
  df.cols.map fun c => (c, (lookupCell df.cols cells c).text)

/-- The row loop of `date_range_search` over one dataframe, carrying the
positional index `idx`. -/
def fileMatchesAux (P : DateParser) (sd ed : Option Int)
    (dateCols : Option (List String)) (df : DataFrame) :
    Nat → List (List Cell) → List RowMatch
  | _, [] => []
  | i, cells :: rest =>
    (if rowDateFound P (potentialDateCols P dateCols df) sd ed df.cols
        cells then
      [⟨i, rowMatchFields df cells⟩]
    else []) ++ fileMatchesAux P sd ed dateCols df (i + 1) rest

/-- The matches of `date_range_search` inside one dataframe. -/
def fileMatches (P : DateParser) (sd ed : Option Int)
    (dateCols : Option (List String)) (df : DataFrame) : List RowMatch :=
  fileMatchesAux P sd ed dateCols df 0 df.rows

/-- Model of `DeepSearchAgent.date_range_search` (with already-parsed
bounds; an invalid bound string makes the Python function return `{}`
before reaching this logic).  Files with no candidate date columns are
skipped, and files contribute only when they have matches. -/
def dateRangeSearch (P : DateParser) (dfs : List DataFrame)
    (sd ed : Option Int) (dateCols : Option (List String)) :
    List (String × List RowMatch) :=
  dfs.filterMap fun df =>
    if potentialDateCols P dateCols df = [] then none
    else
      if fileMatches P sd ed dateCols df = [] then none
      else some (df.name, fileMatches P sd ed dateCols df)

/-- A concrete instantiation of the abstract date parser: the generic
parser accepts "2024-01-15" and the single explicit format accepts
"01/15/2024", both denoting day 20240115 of the timeline. -/
def demoParser : DateParser :=
  ⟨fun s => if s = "2024-01-15" then some 20240115 else none,
   [fun s => if s = "01/15/2024" then some 20240115 else none]⟩

/-- A concrete two-row dataset with one parseable date cell. -/
def demoDF : DataFrame :=
  ⟨"sched.csv", ["Date", "Client"],
    [[Cell.vstr "2024-01-15", Cell.vstr "Bob"],
     [Cell.vstr "junk", Cell.vstr "Carol"]]⟩

/-- The dates of one row that `date_range_search` actually compares against
the bounds: parses of the candidate columns' stringified cells, skipping
"nan"/empty. -/
def rowDates (P : DateParser) (pdcols : List String) (cols : List String)
    (cells : List Cell) : List Int :=
  pdcols.filterMap fun c =>
    let cv := (lookupCell cols cells c).text
    if pyLower cv = "nan" || cv = "" then none
    else P.parse cv

/-- All dates of one dataframe that `date_range_search` compares. -/
def dfCandidateDates (P : DateParser) (dateCols : Option (List String))
    (df : DataFrame) : List Int :=
  (df.rows.map (rowDates P (potentialDateCols P dateCols df) df.cols)).flatten

/-- All dates of the loaded datasets that `date_range_search` compares. -/
def allCandidateDates (P : DateParser) (dateCols : Option (List String))
    (dfs : List DataFrame) : List Int :=
  (dfs.map (dfCandidateDates P dateCols)).flatten

/-- Lookup of a row column inside a record (`record[c]` before the metadata
keys are considered). -/
def Record.rowField (rec : Record) (c : String) : Option Cell :=
  ((rec.cols.zip rec.cells).find? (fun p => p.1 = c)).map (fun p => p.2)

/-- Dict lookup `record[c]` of a search-result record: the metadata keys
`file`, `match_score` (fuzzy results only) and `matching_value` are written
into the dict after the row columns, so they shadow row columns of the same
name. -/
def Record.fieldCell (rec : Record) (c : String) : Option Cell :=
  if c = "file" then some (Cell.vstr rec.file)
  else if c = "matching_value" then some (Cell.vstr rec.matching_value)
  else if c = "match_score" then
    match rec.match_score with
    | some n => some (Cell.vother (toString n))
    | none => rec.rowField c
  else rec.rowField c

/-- The items of the record dict, in insertion order: the row columns
(with metadata shadowing), then the metadata keys not already present. -/
def Record.items (rec : Record) : List (String × Cell) :=
  (rec.cols.map fun c =>
    (c, match rec.fieldCell c with
      | some cell => cell
      | none => Cell.na)) ++
  (if rec.cols.contains "file" then [] else [("file", Cell.vstr rec.file)]) ++
  (match rec.match_score with
    | some n =>
      if rec.cols.contains "match_score" then []
      else [("match_score", Cell.vother (toString n))]
    | none => []) ++
  (if rec.cols.contains "matching_value" then []
    else [("matching_value", Cell.vstr rec.matching_value)])

/-- One (column, value) filter test of `combined_search`: the record has
the column and the lower-cased filter value is contained in the lower-cased
stringified field value. -/
def matchesFilter (rec : Record) (c v : String) : Bool :=
  match rec.fieldCell c with
  | some cell => strContains (pyLower cell.text) (pyLower v)
  | none => false

/-- The filters stage of `combined_search`: keep a record only if every
filter matches (AND semantics). -/
def applyFilters (filters : List (String × String)) (results : List Record) :
    List Record :=
  results.filter (fun rec => filters.all (fun f => matchesFilter rec f.1 f.2))

/-- The per-record test of `filter_by_date_range`: some non-missing field
value (row columns and metadata alike, as `record.items()` yields them)
parses under `pd.to_datetime` — abstracted as the oracle `pdParse` on the
raw cell — and falls inclusively within the provided bounds. -/
def recordInDateRange (pdParse : Cell → Option Int) (sd ed : Option Int)
    (rec : Record) : Bool :=
  rec.items.any fun it =>
    if it.2.isNa then false
    else
      match pdParse it.2 with
      | some d => inRange sd ed d
      | none => false

/-- Model of `DeepSearchAgent.filter_by_date_range`: returns the input
unchanged when it is empty or no bound is given, else keeps the records
with some field date in range. -/
def filterByDateRange (pdParse : Cell → Option Int) (results : List Record)
    (sd ed : Option Int) : List Record :=
  if results = [] ∨ (sd = none ∧ ed = none) then results
  else results.filter (recordInDateRange pdParse sd ed)

/-- Model of `DeepSearchAgent.combined_search`: query search (exact or
fuzzy, both with `columns=None`; a missing or empty query yields no
results), then date filtering when bounds are given and results are
non-empty, then the column=substring filters when given and results are
non-empty. -/
def combinedSearch (pdParse : Cell → Option Int) (dfs : List DataFrame)
    (query : Option String) (fuzzy : Bool) (minScore : Nat)
    (sd ed : Option Int) (filters : List (String × String))
    (caseSensitive : Bool) : List Record :=
  let results :=
    match query with
    | some q =>
      if q = "" then []
      else
        if fuzzy then fuzzySearch dfs q minScore none
        else exactSearch dfs q caseSensitive none
    | none => []
  let results2 :=
    if (sd.isSome ∨ ed.isSome) ∧ ¬ results = [] then
      filterByDateRange pdParse results sd ed
    else results
  if ¬ filters = [] ∧ ¬ results2 = [] then applyFilters filters results2
  else results2

/-- The default NA sentinels that `pd.read_csv` turns into NaN. -/
def pandasNaTokens : List String :=
  ["", "#N/A", "#N/A N/A", "#NA", "-1.#IND", "-1.#QNAN", "-NaN", "-nan",
   "1.#IND", "1.#QNAN", "<NA>", "N/A", "NA", "NULL", "NaN", "None",
   "n/a", "nan", "null"]

/-- Accumulate the keys of one record into the running column list of
`pd.DataFrame(results)` (union of keys in first-appearance order). -/
def addKeys (acc : List String) (ks : List String) : List String :=
  ks.foldl (fun a k => if a.contains k then a else a ++ [k]) acc

/-- The columns of `pd.DataFrame(results)`. -/
def exportColumns (results : List Record) : List String :=
  results.foldl (fun acc rec => addKeys acc (rec.items.map (fun it => it.1)))
    []

/-- The CSV field that `export_results`/`df.to_csv` writes for one record
and column: NaN and missing keys become the empty field, any other value
its text.  `to_csv`'s quoting and `read_csv`'s unquoting are inverse to
each other and are not modelled. -/
def exportField (rec : Record) (c : String) : String :=
  match rec.fieldCell c with
  | some Cell.na => ""
  | some cell => cell.text
  | none => ""

/-- The tokens that `pd.read_csv` converts to booleans. -/
def pandasBoolTokens : List String :=
  ["True", "TRUE", "true", "False", "FALSE", "false"]

/-- Character-level over-approximation of the numeric tokens the pandas
parsers accept: every string the parsers read as an integer or float
(digits, signs, dot, exponent, inf/nan words) consists solely of these
characters, so a string containing any other character certainly fails
numeric conversion.  The over-approximation errs only towards treating
more strings as possibly numeric. -/
def numLikeOver (s : String) : Bool :=
  ¬ s.data = [] &&
    s.data.all (fun c =>
      ("0123456789+-.eEiInNfFaAtTyY " : String).data.contains c)

/-- Sufficient condition for `pd.read_csv` to keep a written column as
object dtype (raw strings): some non-NA field fails every conversion —
it is neither numeric-like (over-approximated by `numLikeOver`) nor a bool
token, so the whole-column int64/float64/bool inference all fail. -/
def columnStaysObject (fields : List String) : Bool :=
  fields.any (fun f =>
    !pandasNaTokens.contains f && !numLikeOver f &&
      !pandasBoolTokens.contains f)

/-- What `pd.read_csv` makes of one written field of a column whose raw
fields are `colFields`: NA sentinels become NaN; fields of a column that
certainly stays object dtype reload as the unchanged string; in a column
that may undergo whole-column numeric/bool inference the converted value is
given by the oracle `inferred` (pandas' number parsing and formatting are
third-party and not modelled). -/
def reloadField (inferred : String → Cell) (colFields : List String)
    (s : String) : Cell :=
  if pandasNaTokens.contains s then Cell.na
  else if columnStaysObject colFields then Cell.vstr s
  else inferred s

/-- The raw fields that `export_results` writes for one column. -/
def exportedColumnFields (results : List Record) (c : String) :
    List String :=
  results.map (fun rec => exportField rec c)

/-- The rows obtained by exporting a result list to CSV and reloading it. -/
def exportReloadRows (inferred : String → Cell) (results : List Record) :
    List (List (String × Cell)) :=
  results.map fun rec =>
    (exportColumns results).map fun c =>
      (c, reloadField inferred (exportedColumnFields results c)
        (exportField rec c))

/-- A record whose only data cell is the string "NA"; used against
claim C6. -/
def naRec : Record := ⟨"r.csv", ["Code"], [Cell.vstr "NA"], "NA", none⟩

/-- Match the regex `\d{2}_\d{2}_\d{2}` at the head of the character
list. -/
def matchDatePatternAt :
    List Char → Option (Char × Char × Char × Char × Char × Char)
  | m1 :: m2 :: '_' :: d1 :: d2 :: '_' :: y1 :: y2 :: _ =>
    if m1.isDigit && m2.isDigit && d1.isDigit && d2.isDigit &&
        y1.isDigit && y2.isDigit then
      some (m1, m2, d1, d2, y1, y2)
    else none
  | _ => none

/-- Leftmost occurrence of the `\d{2}_\d{2}_\d{2}` pattern, as `re.search`
finds it. -/
def findDatePattern :
    List Char → Option (Char × Char × Char × Char × Char × Char)
  | [] => none
  | c :: rest =>
    match matchDatePatternAt (c :: rest) with
    | some r => some r
    | none => findDatePattern rest

/-- Model of `DailyScheduleProcessor.extract_date_from_filename`: the first
`MM_DD_YY` occurrence in the basename becomes `"20YY-MM-DD"`; with no
occurrence the code falls back to the file's modification date, supplied
here as `mtimeFallback`. -/
def extractDateFromFilename (mtimeFallback : String) (basename : String) :
    String :=
  match findDatePattern basename.data with
  | some (m1, m2, d1, d2, y1, y2) =>
    String.mk ['2', '0', y1, y2, '-', m1, m2, '-', d1, d2]
  | none => mtimeFallback

/-- Python `dict[k] = v`: update the first binding of `k` in place, else
append. -/
def dictSet : List (String × String) → String → String →
    List (String × String)
  | [], k, v => [(k, v)]
  | p :: rest, k, v =>
    if p.1 = k then (k, v) :: rest else p :: dictSet rest k v

/-- Python `dict[k]` as an option. -/
def dictGet : List (String × String) → String → Option String
  | [], _ => none
  | p :: rest, k => if p.1 = k then some p.2 else dictGet rest k

/-- Python `k in dict`. -/
def dictHas (j : List (String × String)) (k : String) : Bool :=
  (dictGet j k).isSome

/-- Split a string at its first colon (`cell.split(':', 1)` when a colon is
present). -/
def splitFirstColon : List Char → Option (List Char × List Char)
  | [] => none
  | c :: rest =>
    if c = ':' then some ([], rest)
    else
      match splitFirstColon rest with
      | some (l, r) => some (c :: l, r)
      | none => none

/-- Python `s.strip()`. -/
def pyStrip (s : String) : String :=
  ⟨(((s.data.dropWhile Char.isWhitespace).reverse).dropWhile
      Char.isWhitespace).reverse⟩

/-- The key/value pair that the `':' in str(cell)` branch of
`process_schedule_file` extracts from a cell, when both stripped parts are
non-empty. -/
def cellKV (cell : Cell) : Option (String × String) :=
  match cell with
  | Cell.vstr s =>
    (match splitFirstColon s.data with
      | some (l, r) =>
        if ¬ pyStrip ⟨l⟩ = "" ∧ ¬ pyStrip ⟨r⟩ = "" then
          some (pyStrip ⟨l⟩, pyStrip ⟨r⟩)
        else none
      | none => none)
  | _ => none

/-- The accumulated jobs and the job under construction of
`process_schedule_file`. -/
structure JobState where
  jobs : List (List (String × String))
  cur : List (String × String)

/-- The `"COMPANY:" in str(cell)` branch: when the current job has more
than one entry it is flushed and a fresh job is started; otherwise the
current job (empty, or holding a single accumulated entry) is kept and the
`Schedule_Date` and `Source_File` keys are stamped on top of it, as the
source resets `current_job` only inside the flush guard. -/
def companyStep (schedDate srcFile : String) (st : JobState) (s : String) :
    JobState :=
  if strContains s "COMPANY:" then
    if ¬ st.cur = [] ∧ st.cur.length > 1 then
      ⟨st.jobs ++ [st.cur],
        dictSet (dictSet [] "Schedule_Date" schedDate) "Source_File" srcFile⟩
    else
      ⟨st.jobs,
        dictSet (dictSet st.cur "Schedule_Date" schedDate) "Source_File"
          srcFile⟩
  else st

/-- The `':' in str(cell)` branch: set the extracted key/value pair, when
both stripped parts are non-empty. -/
def kvStep (st : JobState) (s : String) : JobState :=
  match cellKV (Cell.vstr s) with
  | some kv => ⟨st.jobs, dictSet st.cur kv.1 kv.2⟩
  | none => st

/-- One of the address/phone/email branches: when the regex finds a match
(here: when the oracle `m` yields one) and the fixed key `k` is absent, set
it to the first match. -/
def fixedKeyStep (st : JobState) (k : String) (m : Option String) :
    JobState :=
  match m with
  | some a => if dictHas st.cur k then st else ⟨st.jobs, dictSet st.cur k a⟩
  | none => st

/-- One cell of the row loop of `process_schedule_file`: non-string cells
are skipped; a `COMPANY:` marker flushes the current job (when it has more
than one entry) and starts a new one stamped with `Schedule_Date` and
`Source_File`; a `key: value` cell with non-empty stripped parts sets that
key; the address/phone/email regexes (abstracted as the oracles
`addrMatch`/`phoneMatch`/`emailMatch`, each yielding the first match) set
their fixed keys when absent. -/
def processCell (schedDate srcFile : String)
    (addrMatch phoneMatch emailMatch : String → Option String)
    (st : JobState) (cell : Cell) : JobState :=
  match cell with
  | Cell.vstr s =>
    fixedKeyStep
      (fixedKeyStep
        (fixedKeyStep (kvStep (companyStep schedDate srcFile st s) s)
          "Address" (addrMatch s))
        "Phone" (phoneMatch s))
      "Email" (emailMatch s)
  | _ => st

/-- One row of the row loop: an all-NaN row flushes the current job when it
has more than one entry (dead after `dropna(how='all')`), any other row is
processed cell by cell. -/
def processRow (schedDate srcFile : String)
    (addrMatch phoneMatch emailMatch : String → Option String)
    (st : JobState) (row : List Cell) : JobState :=
  if row.all (fun cell => cell.isNa) then
    if ¬ st.cur = [] ∧ st.cur.length > 1 then ⟨st.jobs ++ [st.cur], []⟩
    else st
  else row.foldl (processCell schedDate srcFile addrMatch phoneMatch
    emailMatch) st

/-- Model of `df.dropna(how='all')`. -/
def dropAllNaRows (rows : List (List Cell)) : List (List Cell) :=
  rows.filter (fun row => ¬ row.all (fun cell => cell.isNa))

/-- Model of `DailyScheduleProcessor.process_schedule_file`: extract the
schedule date from the filename, drop all-NaN rows, run the row loop, and
flush the last job when it has more than one entry. -/
def processScheduleFile (mtimeFallback : String)
    (addrMatch phoneMatch emailMatch : String → Option String)
    (basename : String) (rows : List (List Cell)) :
    List (List (String × String)) :=
  let schedDate := extractDateFromFilename mtimeFallback basename
  let st := (dropAllNaRows rows).foldl
    (processRow schedDate basename addrMatch phoneMatch emailMatch)
    ⟨[], []⟩
  if ¬ st.cur = [] ∧ st.cur.length > 1 then st.jobs ++ [st.cur] else st.jobs

/-- Rows whose key/value cells are extracted into a job before any
`COMPANY:` marker appears; used against claim C7. -/
def preCompanyRows : List (List Cell) :=
  [[Cell.vstr "Time: 9am"], [Cell.vstr "Client: Bob"],
   [Cell.vstr "COMPANY: Acme"], [Cell.vstr "Contact: Sue"]]

/-- Rows whose single pre-marker entry is merged into the stamped job
(the marker branch resets `current_job` only when it flushes). -/
def mergedRows : List (List Cell) :=
  [[Cell.vstr "Time: 9am"], [Cell.vstr "COMPANY: Acme"]]

/-- The invariant of the job-extraction loop: all flushed jobs but possibly
the first carry `Schedule_Date = schedDate`; once a job has been flushed the
current job carries it too; and any `Schedule_Date` value in sight equals
`schedDate`. -/
def jobsInv (schedDate : String) (st : JobState) : Prop :=
  (∀ j ∈ st.jobs.drop 1, dictGet j "Schedule_Date" = some schedDate) ∧
  (¬ st.jobs = [] → dictGet st.cur "Schedule_Date" = some schedDate) ∧
  (∀ v, dictGet st.cur "Schedule_Date" = some v → v = schedDate) ∧
  (∀ j ∈ st.jobs, ∀ v, dictGet j "Schedule_Date" = some v → v = schedDate)

example : fuzzRatio "ab" "abzzzz" = 50 := by decide

example : fuzzRatio "anna" "anna" = 100 := by decide

example : strContains "anna wong" "anna" = true := by decide

example :
    exactSearch [⟨"d.csv", ["A"], [[Cell.vstr "abzzzz"]]⟩] "ab" false none =
      [⟨"d.csv", ["A"], [Cell.vstr "abzzzz"], "abzzzz", none⟩] := by decide

example :
    fuzzySearch [⟨"d.csv", ["A"], [[Cell.vstr "abzzzz"]]⟩] "ab" 70 none =
      [] := by decide

theorem exactRowMatch_eq_find (qcmp : String) (caseSensitive : Bool)
    (cols : List String) (cells : List Cell) (sc : List String) :
    exactRowMatch qcmp caseSensitive cols cells sc =
      (sc.find? (colMatches qcmp caseSensitive cols cells)).map
        (fun c => (lookupCell cols cells c).text) := by
  induction sc with
  | nil => rfl
  | cons c rest ih =>
    simp only [exactRowMatch, List.find?]
    cases h : lookupCell cols cells c with
    | na => simp [colMatches, h, Cell.isNa, ih]
    | vstr s =>
      by_cases hm : strContains (if caseSensitive then s else pyLower s) qcmp
      · simp [colMatches, h, Cell.isNa, Cell.text, hm]
      · simp [colMatches, h, Cell.isNa, Cell.text, hm, ih]
    | vother s =>
      by_cases hm : strContains (if caseSensitive then s else pyLower s) qcmp
      · simp [colMatches, h, Cell.isNa, Cell.text, hm]
      · simp [colMatches, h, Cell.isNa, Cell.text, hm, ih]

theorem exactRowRecord_eq (q : String) (caseSensitive : Bool)
    (columns : Option (List String)) (df : DataFrame) (cells : List Cell) :
    exactRowRecord q caseSensitive columns df cells =
      (match (effectiveCols columns df.cols).find?
          (colMatches (if caseSensitive then q else pyLower q) caseSensitive
            df.cols cells) with
      | some c =>
        some ⟨df.name, df.cols, cells, (lookupCell df.cols cells c).text, none⟩
      | none => none) := by
  simp only [exactRowRecord, exactRowMatch_eq_find]
  cases (effectiveCols columns df.cols).find?
      (colMatches (if caseSensitive then q else pyLower q) caseSensitive
        df.cols cells) with
  | some c => rfl
  | none => rfl

theorem exactRowRecord_isSome_iff (q : String) (caseSensitive : Bool)
    (columns : Option (List String)) (df : DataFrame) (cells : List Cell) :
    (exactRowRecord q caseSensitive columns df cells).isSome ↔
      ∃ c ∈ effectiveCols columns df.cols,
        colMatches (if caseSensitive then q else pyLower q) caseSensitive
          df.cols cells c = true := by
  rw [exactRowRecord_eq]
  rw [← List.find?_isSome]
  cases (effectiveCols columns df.cols).find?
      (colMatches (if caseSensitive then q else pyLower q) caseSensitive
        df.cols cells) with
  | some c => simp
  | none => simp

theorem mem_exactSearch_iff (dfs : List DataFrame) (q : String)
    (caseSensitive : Bool) (columns : Option (List String)) (rec : Record) :
    rec ∈ exactSearch dfs q caseSensitive columns ↔
      ∃ df ∈ dfs, ¬ effectiveCols columns df.cols = [] ∧
        ∃ cells ∈ df.rows,
          exactRowRecord q caseSensitive columns df cells = some rec := by
  simp only [exactSearch, List.mem_flatten, List.mem_map, exactSearchDF]
  constructor
  · rintro ⟨l, ⟨df, hdf, rfl⟩, hrec⟩
    by_cases h : effectiveCols columns df.cols = []
    · simp [h] at hrec
    · simp only [h, if_false] at hrec
      rw [List.mem_filterMap] at hrec
      obtain ⟨cells, hcells, hr⟩ := hrec
      exact ⟨df, hdf, h, cells, hcells, hr⟩
  · rintro ⟨df, hdf, h, cells, hcells, hr⟩
    refine ⟨_, ⟨df, hdf, rfl⟩, ?_⟩
    simp only [h, if_false]
    exact List.mem_filterMap.mpr ⟨cells, hcells, hr⟩

theorem lcsLen_self (l : List Char) : lcsLen l l = l.length := by
  induction l with
  | nil => rfl
  | cons a as ih => simp [lcsLen, lcsWith, ih]

theorem fuzzRatio_self (s : String) : fuzzRatio s s = 100 := by
  unfold fuzzRatio
  rcases Nat.eq_zero_or_pos s.data.length with h | h
  · simp [h]
  · have hne : ¬ (s.data.length + s.data.length = 0) := by omega
    simp only [hne, if_false, lcsLen_self, roundHalfEven]
    have hmul : 200 * s.data.length = 100 * (s.data.length + s.data.length) := by
      ring
    have hpos : 0 < s.data.length + s.data.length := by omega
    rw [hmul, Nat.mul_div_cancel _ hpos, Nat.mul_mod_left]
    simp [hpos]

theorem fuzzyRowLoop_eq_pairLoop (qlow : String) (threshold : Nat)
    (cols : List String) (cells : List Cell) (sc : List String)
    (st : FuzzyState) :
    fuzzyRowLoop qlow threshold cols cells sc st =
      pairLoop threshold (fuzzyScores qlow cols cells sc) st := by
  induction sc generalizing st with
  | nil => rfl
  | cons c rest ih =>
    simp only [fuzzyRowLoop, fuzzyScores, List.filterMap_cons]
    cases h : lookupCell cols cells c with
    | na => simpa [fuzzyScores] using ih st
    | vstr s =>
      by_cases hc :
          fuzzRatio qlow (pyLower s) > threshold ∧
            fuzzRatio qlow (pyLower s) > st.highest
      · simp only [pairLoop]
        rw [if_pos (by simpa using hc), if_pos (by simpa using hc)]
        simpa [fuzzyScores] using ih _
      · simp only [pairLoop]
        rw [if_neg (by simpa using hc), if_neg (by simpa using hc)]
        simpa [fuzzyScores] using ih st
    | vother s => simpa [fuzzyScores] using ih st

theorem pairLoop_eq_maxLoop (threshold : Nat) (ps : List (Nat × String))
    (st : FuzzyState) :
    pairLoop threshold ps st =
      maxLoop (ps.filter (fun p => threshold < p.1)) st := by
  induction ps generalizing st with
  | nil => rfl
  | cons p ps ih =>
    simp only [pairLoop, List.filter_cons]
    by_cases hp : threshold < p.1
    · rw [if_pos (show decide (threshold < p.1) = true by simpa using hp)]
      by_cases hh : st.highest < p.1
      · rw [if_pos (show (decide (p.1 > threshold) &&
            decide (p.1 > st.highest)) = true by
              simp only [Bool.and_eq_true, decide_eq_true_eq]
              exact ⟨hp, hh⟩)]
        simp only [maxLoop]
        rw [if_pos hh]
        exact ih _
      · rw [if_neg (show ¬ (decide (p.1 > threshold) &&
            decide (p.1 > st.highest)) = true by
              simp only [Bool.and_eq_true, decide_eq_true_eq]
              omega)]
        simp only [maxLoop]
        rw [if_neg hh]
        exact ih st
    · rw [if_neg (show ¬ decide (threshold < p.1) = true by simpa using hp)]
      rw [if_neg (show ¬ (decide (p.1 > threshold) &&
          decide (p.1 > st.highest)) = true by
            simp only [Bool.and_eq_true, decide_eq_true_eq]
            omega)]
      exact ih st

theorem le_foldl_max (ps : List (Nat × String)) (h : Nat) :
    h ≤ ps.foldl (fun m p => max m p.1) h := by
  induction ps generalizing h with
  | nil => simp
  | cons p ps ih => exact le_trans (le_max_left h p.1) (ih _)

theorem maxLoop_spec (ps : List (Nat × String)) (st : FuzzyState) :
    (maxLoop ps st).highest = ps.foldl (fun m p => max m p.1) st.highest ∧
      ((maxLoop ps st).highest = st.highest → maxLoop ps st = st) ∧
      (st.highest < (maxLoop ps st).highest →
        (maxLoop ps st).found = true ∧
          ∃ p, ps.find? (fun p => p.1 = (maxLoop ps st).highest) = some p ∧
            (maxLoop ps st).mv = p.2) := by
  induction ps generalizing st with
  | nil => simp [maxLoop]
  | cons p ps ih =>
    by_cases hp : st.highest < p.1
    · have heq : maxLoop (p :: ps) st = maxLoop ps ⟨true, p.1, p.2⟩ := by
        simp only [maxLoop]
        rw [if_pos hp]
      obtain ⟨ih1, ih2, ih3⟩ := ih ⟨true, p.1, p.2⟩
      have hmax : max st.highest p.1 = p.1 := by omega
      have hge : p.1 ≤ (maxLoop ps ⟨true, p.1, p.2⟩).highest := by
        rw [ih1]
        exact le_foldl_max ps _
      rw [heq]
      refine ⟨by rw [ih1, List.foldl_cons, hmax], ?_, ?_⟩
      · intro hEq
        omega
      · intro _
        rcases Nat.lt_or_ge p.1 (maxLoop ps ⟨true, p.1, p.2⟩).highest
          with hlt | hge2
        · obtain ⟨hf, pp, hfind, hmv⟩ := ih3 hlt
          refine ⟨hf, pp, ?_, hmv⟩
          rw [List.find?_cons_of_neg, hfind]
          simp only [decide_eq_true_eq]
          omega
        · have hEq : (maxLoop ps ⟨true, p.1, p.2⟩).highest = p.1 := by omega
          have hfix := ih2 hEq
          rw [hfix]
          refine ⟨rfl, p, ?_, rfl⟩
          rw [List.find?_cons_of_pos]
          simp
    · have heq : maxLoop (p :: ps) st = maxLoop ps st := by
        simp only [maxLoop]
        rw [if_neg hp]
      obtain ⟨ih1, ih2, ih3⟩ := ih st
      have hmax : max st.highest p.1 = st.highest := by omega
      rw [heq]
      refine ⟨by rw [ih1, List.foldl_cons, hmax], ih2, ?_⟩
      intro hlt
      obtain ⟨hf, pp, hfind, hmv⟩ := ih3 hlt
      refine ⟨hf, pp, ?_, hmv⟩
      rw [List.find?_cons_of_neg, hfind]
      simp only [decide_eq_true_eq]
      omega

theorem fuzzyRowLoop_eq_maxLoop (q : String) (threshold : Nat)
    (columns : Option (List String)) (df : DataFrame) (cells : List Cell) :
    fuzzyRowLoop (pyLower q) threshold df.cols cells
        (effectiveCols columns df.cols) ⟨false, 0, ""⟩ =
      maxLoop (rowAbove q threshold columns df cells) ⟨false, 0, ""⟩ := by
  rw [fuzzyRowLoop_eq_pairLoop, pairLoop_eq_maxLoop]
  rfl

theorem rowAbove_pos (q : String) (threshold : Nat)
    (columns : Option (List String)) (df : DataFrame) (cells : List Cell)
    (p : Nat × String) (hp : p ∈ rowAbove q threshold columns df cells) :
    0 < p.1 := by
  have := List.of_mem_filter hp
  simp only [decide_eq_true_eq] at this
  omega

theorem maxLoop_init_spec (A : List (Nat × String))
    (hpos : ∀ p ∈ A, 0 < p.1) :
    ((maxLoop A ⟨false, 0, ""⟩).found = false ↔ A = []) ∧
      (maxLoop A ⟨false, 0, ""⟩).highest =
        A.foldl (fun m p => max m p.1) 0 ∧
      (A ≠ [] →
        ∃ pp, A.find? (fun p => p.1 = A.foldl (fun m p => max m p.1) 0) =
            some pp ∧
          (maxLoop A ⟨false, 0, ""⟩).mv = pp.2) := by
  obtain ⟨h1, h2, h3⟩ := maxLoop_spec A ⟨false, 0, ""⟩
  cases A with
  | nil => simp [maxLoop]
  | cons p ps =>
    have hppos : 0 < p.1 := hpos p (List.mem_cons_self p ps)
    have hhigh : 0 < (maxLoop (p :: ps) ⟨false, 0, ""⟩).highest := by
      have h0 : (⟨false, 0, ""⟩ : FuzzyState).highest = 0 := rfl
      rw [h1, h0, List.foldl_cons]
      have hle := le_foldl_max ps (max 0 p.1)
      omega
    obtain ⟨hfound, pp, hfind, hmv⟩ := h3 hhigh
    refine ⟨by simp [hfound], by simpa using h1, fun _ => ⟨pp, ?_, hmv⟩⟩
    rw [h1] at hfind
    simpa using hfind

theorem fuzzyRowRecord_eq_maxLoop (q : String) (threshold : Nat)
    (columns : Option (List String)) (df : DataFrame) (cells : List Cell) :
    fuzzyRowRecord q threshold columns df cells =
      (if (maxLoop (rowAbove q threshold columns df cells)
            ⟨false, 0, ""⟩).found then
        some ⟨df.name, df.cols, cells,
          (maxLoop (rowAbove q threshold columns df cells)
            ⟨false, 0, ""⟩).mv,
          some (maxLoop (rowAbove q threshold columns df cells)
            ⟨false, 0, ""⟩).highest⟩
      else none) := by
  simp only [fuzzyRowRecord, fuzzyRowLoop_eq_maxLoop]

theorem fuzzyRowRecord_spec (q : String) (threshold : Nat)
    (columns : Option (List String)) (df : DataFrame) (cells : List Cell) :
    (fuzzyRowRecord q threshold columns df cells = none ↔
        rowAbove q threshold columns df cells = []) ∧
      (∀ rec, fuzzyRowRecord q threshold columns df cells = some rec →
        rec.file = df.name ∧ rec.cols = df.cols ∧ rec.cells = cells ∧
          rec.match_score =
            some ((rowAbove q threshold columns df cells).foldl
              (fun m p => max m p.1) 0) ∧
          ∃ p, (rowAbove q threshold columns df cells).find?
              (fun p => p.1 = (rowAbove q threshold columns df cells).foldl
                (fun m p => max m p.1) 0) = some p ∧
            rec.matching_value = p.2) := by
  obtain ⟨h1, h2, h3⟩ := maxLoop_init_spec (rowAbove q threshold columns df
    cells) (fun p hp => rowAbove_pos q threshold columns df cells p hp)
  rw [fuzzyRowRecord_eq_maxLoop]
  by_cases hf : (maxLoop (rowAbove q threshold columns df cells)
      ⟨false, 0, ""⟩).found = true
  · rw [if_pos hf]
    constructor
    · simp only [reduceCtorEq, false_iff]
      intro hnil
      rw [h1.mpr hnil] at hf
      cases hf
    · intro rec hrec
      have hne : rowAbove q threshold columns df cells ≠ [] := by
        intro hnil
        rw [h1.mpr hnil] at hf
        cases hf
      obtain ⟨pp, hfind, hmv⟩ := h3 hne
      have hrec' : rec = ⟨df.name, df.cols, cells,
          (maxLoop (rowAbove q threshold columns df cells)
            ⟨false, 0, ""⟩).mv,
          some (maxLoop (rowAbove q threshold columns df cells)
            ⟨false, 0, ""⟩).highest⟩ := by
        cases hrec
        rfl
      rw [hrec']
      exact ⟨rfl, rfl, rfl, by rw [h2], pp, hfind, hmv⟩
  · rw [if_neg hf]
    have hfalse : (maxLoop (rowAbove q threshold columns df cells)
        ⟨false, 0, ""⟩).found = false := by
      cases hb : (maxLoop (rowAbove q threshold columns df cells)
          ⟨false, 0, ""⟩).found
      · rfl
      · exact absurd hb hf
    constructor
    · simp only [true_iff]
      exact h1.mp hfalse
    · intro rec hrec
      cases hrec

theorem fuzzyRowRecord_isSome_iff (q : String) (threshold : Nat)
    (columns : Option (List String)) (df : DataFrame) (cells : List Cell) :
    (fuzzyRowRecord q threshold columns df cells).isSome ↔
      ∃ c ∈ effectiveCols columns df.cols, ∃ s,
        lookupCell df.cols cells c = Cell.vstr s ∧
          threshold < fuzzRatio (pyLower q) (pyLower s) := by
  constructor
  · intro h
    have hne : rowAbove q threshold columns df cells ≠ [] := by
      intro hnil
      rw [(fuzzyRowRecord_spec q threshold columns df cells).1.mpr hnil] at h
      cases h
    obtain ⟨p, hp⟩ := List.exists_mem_of_ne_nil _ hne
    have hthr := List.of_mem_filter hp
    simp only [decide_eq_true_eq] at hthr
    have hmem := List.mem_of_mem_filter hp
    rw [fuzzyScores, List.mem_filterMap] at hmem
    obtain ⟨c, hc, hcp⟩ := hmem
    cases hcell : lookupCell df.cols cells c with
    | na => rw [hcell] at hcp; cases hcp
    | vstr s =>
      rw [hcell] at hcp
      refine ⟨c, hc, s, hcell, ?_⟩
      have hps : p = (fuzzRatio (pyLower q) (pyLower s), s) := by
        cases hcp
        rfl
      rw [hps] at hthr
      exact hthr
    | vother s => rw [hcell] at hcp; cases hcp
  · rintro ⟨c, hc, s, hcell, hthr⟩
    rw [Option.isSome_iff_ne_none]
    intro hnone
    have hnil := (fuzzyRowRecord_spec q threshold columns df cells).1.mp hnone
    have hp : (fuzzRatio (pyLower q) (pyLower s), s) ∈
        rowAbove q threshold columns df cells := by
      rw [rowAbove, List.mem_filter]
      refine ⟨?_, by simpa using hthr⟩
      rw [fuzzyScores, List.mem_filterMap]
      exact ⟨c, hc, by rw [hcell]⟩
    rw [hnil] at hp
    cases hp

theorem mem_fuzzySearch_iff (dfs : List DataFrame) (q : String)
    (threshold : Nat) (columns : Option (List String)) (rec : Record) :
    rec ∈ fuzzySearch dfs q threshold columns ↔
      ∃ df ∈ dfs, ¬ effectiveCols columns df.cols = [] ∧
        ∃ cells ∈ df.rows,
          fuzzyRowRecord q threshold columns df cells = some rec := by
  simp only [fuzzySearch, List.mem_flatten, List.mem_map, fuzzySearchDF]
  constructor
  · rintro ⟨l, ⟨df, hdf, rfl⟩, hrec⟩
    by_cases h : effectiveCols columns df.cols = []
    · simp [h] at hrec
    · simp only [h, if_false] at hrec
      rw [List.mem_filterMap] at hrec
      obtain ⟨cells, hcells, hr⟩ := hrec
      exact ⟨df, hdf, h, cells, hcells, hr⟩
  · rintro ⟨df, hdf, h, cells, hcells, hr⟩
    refine ⟨_, ⟨df, hdf, rfl⟩, ?_⟩
    simp only [h, if_false]
    exact List.mem_filterMap.mpr ⟨cells, hcells, hr⟩

/-- C1 counterexample: for query "ab" and threshold 70, exact search finds
the row whose cell "abzzzz" contains the query, but its fuzzy score is
`fuzzRatio "ab" "abzzzz" = 50 ≤ 70`, so fuzzy search returns nothing: the
fuzzy result set is not a (strict) superset of the exact result set, and an
exact-containment match does not attain a maximal fuzzy score. -/
theorem claim_C1_counterexample :
    exactSearch [subDF] "ab" false none =
        [⟨"sub.csv", ["A"], [Cell.vstr "abzzzz"], "abzzzz", none⟩] ∧
      fuzzySearch [subDF] "ab" 70 none = [] ∧
      fuzzRatio (pyLower "ab") (pyLower "abzzzz") = 50 := by
  decide

/-- C1 amended: fuzzy search results need not contain exact-containment
matches; a cell attains the maximal similarity score 100 when it equals the
query up to case, so whenever the threshold is below 100, every row having
a searched string-typed cell equal to the query up to case does appear
among the fuzzy results. -/
theorem claim_C1_amended (dfs : List DataFrame) (q : String) (threshold : Nat)
    (columns : Option (List String)) (df : DataFrame) (cells : List Cell)
    (c : String) (s : String) (hdf : df ∈ dfs) (hcells : cells ∈ df.rows)
    (hthr : threshold < 100) (hc : c ∈ effectiveCols columns df.cols)
    (hcell : lookupCell df.cols cells c = Cell.vstr s)
    (hs : pyLower s = pyLower q) :
    ∃ rec ∈ fuzzySearch dfs q threshold columns,
      rec.file = df.name ∧ rec.cells = cells := by
  have hsc : ¬ effectiveCols columns df.cols = [] := by
    intro h
    rw [h] at hc
    cases hc
  have hscore : threshold < fuzzRatio (pyLower q) (pyLower s) := by
    rw [hs, fuzzRatio_self]
    exact hthr
  have hsome := (fuzzyRowRecord_isSome_iff q threshold columns df cells).mpr
    ⟨c, hc, s, hcell, hscore⟩
  obtain ⟨rec, hrec⟩ := Option.isSome_iff_exists.mp hsome
  obtain ⟨hfile, _, hcls, _⟩ :=
    (fuzzyRowRecord_spec q threshold columns df cells).2 rec hrec
  refine ⟨rec, ?_, hfile, hcls⟩
  exact (mem_fuzzySearch_iff dfs q threshold columns rec).mpr
    ⟨df, hdf, hsc, cells, hcells, hrec⟩

/-- Witness for the amended C1 at a concrete input: the row "Anna" is a
fuzzy result for query "anna" at threshold 70. -/
theorem claim_C1_amended_witness :
    ∃ rec ∈ fuzzySearch [⟨"w.csv", ["A"], [[Cell.vstr "Anna"]]⟩] "anna" 70
        none,
      rec.file = "w.csv" ∧ rec.cells = [Cell.vstr "Anna"] := by
  have h := claim_C1_amended [⟨"w.csv", ["A"], [[Cell.vstr "Anna"]]⟩] "anna"
    70 none ⟨"w.csv", ["A"], [[Cell.vstr "Anna"]]⟩ [Cell.vstr "Anna"] "A"
    "Anna" (by decide) (by decide) (by decide) (by decide) (by decide)
    (by decide)
  simpa using h

/-- C2: case-insensitive exact search returns exactly the rows in which
some allowed column holds a non-missing cell whose stringified, lower-cased
value contains the lower-cased query — every such row is returned
(completeness) and every returned record comes from such a row
(soundness). -/
theorem claim_C2_exact_search_contains (dfs : List DataFrame) (q : String)
    (columns : Option (List String)) (hq : q ≠ "") :
    (∀ df ∈ dfs, ∀ cells ∈ df.rows,
        (∃ c ∈ effectiveCols columns df.cols,
            lookupCell df.cols cells c ≠ Cell.na ∧
              strContains (pyLower (lookupCell df.cols cells c).text)
                (pyLower q) = true) →
          ∃ rec ∈ exactSearch dfs q false columns,
            rec.file = df.name ∧ rec.cells = cells) ∧
      (∀ rec ∈ exactSearch dfs q false columns,
        ∃ df ∈ dfs, rec.file = df.name ∧ rec.cells ∈ df.rows ∧
          ∃ c ∈ effectiveCols columns df.cols,
            lookupCell df.cols rec.cells c ≠ Cell.na ∧
              strContains (pyLower (lookupCell df.cols rec.cells c).text)
                (pyLower q) = true) := by
  constructor
  · intro df hdf cells hcells ⟨c, hc, hna, hcont⟩
    have hsc : ¬ effectiveCols columns df.cols = [] := by
      intro h
      rw [h] at hc
      cases hc
    have hcm : colMatches (pyLower q) false df.cols cells c = true := by
      rw [colMatches]
      cases hcl : lookupCell df.cols cells c with
      | na => exact absurd hcl hna
      | vstr s =>
        rw [hcl] at hcont
        simpa [Cell.isNa, Cell.text] using hcont
      | vother s =>
        rw [hcl] at hcont
        simpa [Cell.isNa, Cell.text] using hcont
    have hsome := (exactRowRecord_isSome_iff q false columns df cells).mpr
      ⟨c, hc, hcm⟩
    obtain ⟨rec, hrec⟩ := Option.isSome_iff_exists.mp hsome
    have heq := exactRowRecord_eq q false columns df cells
    rw [heq] at hrec
    refine ⟨rec, (mem_exactSearch_iff dfs q false columns rec).mpr
      ⟨df, hdf, hsc, cells, hcells, by rw [heq]; exact hrec⟩, ?_⟩
    cases hfind : (effectiveCols columns df.cols).find?
        (colMatches (if false then q else pyLower q) false df.cols cells) with
    | some c0 =>
      rw [hfind] at hrec
      cases hrec
      exact ⟨rfl, rfl⟩
    | none =>
      rw [hfind] at hrec
      cases hrec
  · intro rec hrec
    obtain ⟨df, hdf, hsc, cells, hcells, hr⟩ :=
      (mem_exactSearch_iff dfs q false columns rec).mp hrec
    rw [exactRowRecord_eq] at hr
    cases hfind : (effectiveCols columns df.cols).find?
        (colMatches (if false then q else pyLower q) false df.cols cells) with
    | some c0 =>
      rw [hfind] at hr
      have hc0 := List.mem_of_find?_eq_some hfind
      have hcm := List.find?_some hfind
      refine ⟨df, hdf, ?_, ?_, c0, hc0, ?_⟩
      · cases hr
        rfl
      · cases hr
        exact hcells
      · have hcells' : rec.cells = cells := by
          cases hr
          rfl
        rw [hcells']
        rw [colMatches] at hcm
        cases hcl : lookupCell df.cols cells c0 with
        | na => rw [hcl] at hcm; simp [Cell.isNa] at hcm
        | vstr s =>
          rw [hcl] at hcm
          simp only [Cell.isNa, Cell.text, Bool.not_false,
            Bool.true_and] at hcm
          exact ⟨by simp, by simpa [Cell.text] using hcm⟩
        | vother s =>
          rw [hcl] at hcm
          simp only [Cell.isNa, Cell.text, Bool.not_false,
            Bool.true_and] at hcm
          exact ⟨by simp, by simpa [Cell.text] using hcm⟩
    | none =>
      rw [hfind] at hr
      cases hr

/-- Witness for C2: a case-insensitive exact search for "Anna Wong" over a
dataset with rows "Anna Wong" and "anna wong " returns both rows. -/
theorem claim_C2_witness :
    (∃ rec ∈ exactSearch [annaDF] "Anna Wong" false none,
        rec.file = "clients.csv" ∧ rec.cells = [Cell.vstr "Anna Wong"]) ∧
      ∃ rec ∈ exactSearch [annaDF] "Anna Wong" false none,
        rec.file = "clients.csv" ∧ rec.cells = [Cell.vstr "anna wong "] := by
  have h := claim_C2_exact_search_contains [annaDF] "Anna Wong" none
    (by decide)
  constructor
  · have h1 := h.1 annaDF (by simp) [Cell.vstr "Anna Wong"]
      (by simp [annaDF]) (by decide)
    simpa [annaDF] using h1
  · have h2 := h.1 annaDF (by simp) [Cell.vstr "anna wong "]
      (by simp [annaDF]) (by decide)
    simpa [annaDF] using h2

/-- C3 counterexample: for the row whose only cell is the non-string value
123 and the query "123", the claim's predicate scores the cell's text at
100 > 70 and demands inclusion, but `fuzzy_search` skips non-string cells
(`not isinstance(row[col], str)`) and returns nothing, so the claimed
"if and only if" fails. -/
theorem claim_C3_counterexample :
    specFuzzyRowIncluded "123" 70 none numDF [Cell.vother "123"] = true ∧
      fuzzySearch [numDF] "123" 70 none = [] := by
  decide

/-- C3 amended: a row is included iff some searched column's *string-typed*
cell scores strictly above the threshold (missing and non-string cells are
skipped); the record's `match_score` is the maximum of the above-threshold
scores and its `matching_value` is the value of the first column attaining
that maximum, in column order. -/
theorem claim_C3_amended (dfs : List DataFrame) (q : String) (threshold : Nat)
    (columns : Option (List String)) :
    fuzzySearch dfs q threshold columns =
        (dfs.map fun df =>
          if effectiveCols columns df.cols = [] then []
          else df.rows.filterMap (fuzzyRowRecord q threshold columns df)
          ).flatten ∧
      (∀ df cells,
        ((fuzzyRowRecord q threshold columns df cells).isSome ↔
          ∃ c ∈ effectiveCols columns df.cols, ∃ s,
            lookupCell df.cols cells c = Cell.vstr s ∧
              threshold < fuzzRatio (pyLower q) (pyLower s))) ∧
      ∀ df cells rec, fuzzyRowRecord q threshold columns df cells = some rec →
        rec.file = df.name ∧ rec.cells = cells ∧
          rec.match_score =
            some ((rowAbove q threshold columns df cells).foldl
              (fun m p => max m p.1) 0) ∧
          ∃ p, (rowAbove q threshold columns df cells).find?
              (fun p => p.1 = (rowAbove q threshold columns df cells).foldl
                (fun m p => max m p.1) 0) = some p ∧
            rec.matching_value = p.2 := by
  refine ⟨rfl, fun df cells => fuzzyRowRecord_isSome_iff q threshold columns
    df cells, fun df cells rec hrec => ?_⟩
  obtain ⟨h1, _, h3, h4, h5⟩ :=
    (fuzzyRowRecord_spec q threshold columns df cells).2 rec hrec
  exact ⟨h1, h3, h4, h5⟩

/-- Witness for the amended C3: on the row ("anna", "annax") with query
"anna" and threshold 50, the produced record carries the maximal score 100
and the value of the first column attaining it. -/
theorem claim_C3_amended_witness :
    ∃ rec, fuzzyRowRecord "anna" 50 none twoColDF
        [Cell.vstr "anna", Cell.vstr "annax"] = some rec ∧
      rec.match_score = some 100 ∧ rec.matching_value = "anna" := by
  have hsome : fuzzyRowRecord "anna" 50 none twoColDF
      [Cell.vstr "anna", Cell.vstr "annax"] =
        some ⟨"s.csv", ["A", "B"], [Cell.vstr "anna", Cell.vstr "annax"],
          "anna", some 100⟩ := by decide
  have h := (claim_C3_amended [twoColDF] "anna" 50 none).2.2 twoColDF
    [Cell.vstr "anna", Cell.vstr "annax"] _ hsome
  exact ⟨_, hsome, by
    rw [h.2.2.1]
    decide, by
    obtain ⟨p, hfind, hmv⟩ := h.2.2.2
    rw [hmv]
    have : (rowAbove "anna" 50 none twoColDF
        [Cell.vstr "anna", Cell.vstr "annax"]).find?
          (fun p => p.1 = (rowAbove "anna" 50 none twoColDF
            [Cell.vstr "anna", Cell.vstr "annax"]).foldl
              (fun m p => max m p.1) 0) = some (100, "anna") := by decide
    rw [this] at hfind
    cases hfind
    rfl⟩

/-- C9: exact-search results follow dataset iteration order then row order
(the result list is the per-dataset result lists concatenated, each of
which is the row list filtered in order), and the per-row record is
determined by the *first* allowed column, in allow-list order, whose
(case-folded unless case-sensitive) value contains the query; the record
carries the source file name and the matched cell text. -/
theorem claim_C9_exact_search_order (dfs : List DataFrame) (q : String)
    (caseSensitive : Bool) (columns : Option (List String)) :
    exactSearch dfs q caseSensitive columns =
        (dfs.map fun df =>
          if effectiveCols columns df.cols = [] then []
          else df.rows.filterMap (exactRowRecord q caseSensitive columns df)
          ).flatten ∧
      ∀ df cells,
        exactRowRecord q caseSensitive columns df cells =
          (match (effectiveCols columns df.cols).find?
              (colMatches (if caseSensitive then q else pyLower q)
                caseSensitive df.cols cells) with
          | some c =>
            some ⟨df.name, df.cols, cells,
              (lookupCell df.cols cells c).text, none⟩
          | none => none) := by
  exact ⟨rfl, fun df cells => exactRowRecord_eq q caseSensitive columns df
    cells⟩

theorem inRange_iff (sd ed : Option Int) (d : Int) :
    inRange sd ed d = true ↔
      (∀ s, sd = some s → s ≤ d) ∧ (∀ e, ed = some e → d ≤ e) := by
  cases sd with
  | none =>
    cases ed with
    | none => simp [inRange]
    | some e => simp [inRange]
  | some s =>
    cases ed with
    | none => simp [inRange]
    | some e => simp [inRange, and_comm]

theorem rowDateFound_iff (P : DateParser) (pdcols : List String)
    (sd ed : Option Int) (cols : List String) (cells : List Cell) :
    rowDateFound P pdcols sd ed cols cells = true ↔
      ∃ c ∈ pdcols,
        ¬ (pyLower (lookupCell cols cells c).text = "nan" ∨
            (lookupCell cols cells c).text = "") ∧
          ∃ d, P.parse (lookupCell cols cells c).text = some d ∧
            inRange sd ed d = true := by
  rw [rowDateFound, List.any_eq_true]
  constructor
  · rintro ⟨c, hc, hb⟩
    by_cases hskip : pyLower (lookupCell cols cells c).text = "nan" ∨
        (lookupCell cols cells c).text = ""
    · rw [if_pos (by simpa using hskip)] at hb
      cases hb
    · rw [if_neg (by simpa using hskip)] at hb
      cases hparse : P.parse (lookupCell cols cells c).text with
      | none => rw [hparse] at hb; cases hb
      | some d =>
        rw [hparse] at hb
        exact ⟨c, hc, hskip, d, hparse, hb⟩
  · rintro ⟨c, hc, hskip, d, hparse, hin⟩
    refine ⟨c, hc, ?_⟩
    rw [if_neg (by simpa using hskip), hparse]
    exact hin

theorem fileMatchesAux_idx_ge (P : DateParser) (sd ed : Option Int)
    (dateCols : Option (List String)) (df : DataFrame) :
    ∀ (rows : List (List Cell)) (n : Nat) (rm : RowMatch),
      rm ∈ fileMatchesAux P sd ed dateCols df n rows → n ≤ rm.idx := by
  intro rows
  induction rows with
  | nil => intro n rm h; cases h
  | cons cells rest ih =>
    intro n rm h
    rw [fileMatchesAux, List.mem_append] at h
    rcases h with h | h
    · by_cases hf : rowDateFound P (potentialDateCols P dateCols df) sd ed
          df.cols cells
      · rw [if_pos hf, List.mem_singleton] at h
        rw [h]
      · rw [if_neg hf] at h
        cases h
    · have := ih (n + 1) rm h
      omega

theorem fileMatchesAux_mem_idx (P : DateParser) (sd ed : Option Int)
    (dateCols : Option (List String)) (df : DataFrame) :
    ∀ (rows : List (List Cell)) (n i : Nat),
      (∃ rm ∈ fileMatchesAux P sd ed dateCols df n rows, rm.idx = n + i) ↔
        ∃ cells, rows[i]? = some cells ∧
          rowDateFound P (potentialDateCols P dateCols df) sd ed df.cols
            cells = true := by
  intro rows
  induction rows with
  | nil =>
    intro n i
    simp [fileMatchesAux]
  | cons cells rest ih =>
    intro n i
    constructor
    · rintro ⟨rm, hrm, hidx⟩
      rw [fileMatchesAux, List.mem_append] at hrm
      rcases hrm with hrm | hrm
      · by_cases hf : rowDateFound P (potentialDateCols P dateCols df) sd ed
            df.cols cells
        · rw [if_pos hf, List.mem_singleton] at hrm
          have hn : rm.idx = n := by rw [hrm]
          have hi : i = 0 := by omega
          rw [hi]
          exact ⟨cells, by simp, hf⟩
        · rw [if_neg hf] at hrm
          cases hrm
      · have hge := fileMatchesAux_idx_ge P sd ed dateCols df rest (n + 1)
          rm hrm
        cases i with
        | zero => omega
        | succ j =>
          have hj := (ih (n + 1) j).mp ⟨rm, hrm, by omega⟩
          simpa using hj
    · rintro ⟨cs, hcs, hf⟩
      cases i with
      | zero =>
        simp only [List.getElem?_cons_zero, Option.some.injEq] at hcs
        rw [← hcs] at hf
        refine ⟨⟨n, rowMatchFields df cells⟩, ?_, by simp⟩
        rw [fileMatchesAux, List.mem_append]
        left
        rw [if_pos hf]
        exact List.mem_singleton.mpr rfl
      | succ j =>
        simp only [List.getElem?_cons_succ] at hcs
        obtain ⟨rm, hrm, hidx⟩ := (ih (n + 1) j).mpr ⟨cs, hcs, hf⟩
        refine ⟨rm, ?_, by omega⟩
        rw [fileMatchesAux, List.mem_append]
        right
        exact hrm

/-- C4: `date_range_search` returns exactly the rows in which at least one
candidate date column's value (neither "nan" nor empty once stringified)
parses and falls inclusively within the bounds; candidate columns are the
explicit ones restricted to existing columns or the auto-detected ones (a
column qualifies when one of its first five non-null sampled values is a
string accepted by the parser); `_parse_date` tries the generic parser
first, then the fixed ordered format list, and total failure is silent (the
parse is `none`, the cell contributes nothing, and no error reaches the
caller since every function here is total). -/
theorem claim_C4_date_range_membership (P : DateParser)
    (dfs : List DataFrame) (sd ed : Option Int)
    (dateCols : Option (List String)) :
    dateRangeSearch P dfs sd ed dateCols =
        dfs.filterMap (fun df =>
          if potentialDateCols P dateCols df = [] then none
          else
            if fileMatches P sd ed dateCols df = [] then none
            else some (df.name, fileMatches P sd ed dateCols df)) ∧
      (∀ v d, P.generic v = some d → P.parse v = some d) ∧
      (∀ v, P.generic v = none → P.parse v = firstParse P.formats v) ∧
      (∀ df c, c ∈ potentialDateCols P none df ↔ c ∈ df.cols ∧
        ∃ cell ∈ ((colValues df c).filter (fun x => !x.isNa)).take 5,
          ∃ s, cell = Cell.vstr s ∧ (P.parse s).isSome = true) ∧
      ∀ df i, (∃ rm ∈ fileMatches P sd ed dateCols df, rm.idx = i) ↔
        ∃ cells, df.rows[i]? = some cells ∧
          ∃ c ∈ potentialDateCols P dateCols df,
            ¬ (pyLower (lookupCell df.cols cells c).text = "nan" ∨
                (lookupCell df.cols cells c).text = "") ∧
            ∃ d, P.parse (lookupCell df.cols cells c).text = some d ∧
              (∀ s, sd = some s → s ≤ d) ∧ (∀ e, ed = some e → d ≤ e) := by
  refine ⟨rfl, ?_, ?_, ?_, ?_⟩
  · intro v d h
    rw [DateParser.parse, h]
  · intro v h
    rw [DateParser.parse, h]
  · intro df c
    show c ∈ df.cols.filter (isDateCandidateCol P df) ↔ _
    rw [List.mem_filter]
    constructor
    · rintro ⟨hcol, hcand⟩
      rw [isDateCandidateCol, List.any_eq_true] at hcand
      obtain ⟨cell, hm, hb⟩ := hcand
      cases cell with
      | na => cases hb
      | vstr s => exact ⟨hcol, Cell.vstr s, hm, s, rfl, hb⟩
      | vother s => cases hb
    · rintro ⟨hcol, cell, hm, s, rfl, hsome⟩
      refine ⟨hcol, ?_⟩
      rw [isDateCandidateCol, List.any_eq_true]
      exact ⟨Cell.vstr s, hm, hsome⟩
  · intro df i
    have h := fileMatchesAux_mem_idx P sd ed dateCols df df.rows 0 i
    rw [Nat.zero_add] at h
    rw [fileMatches, h]
    constructor
    · rintro ⟨cells, hcells, hf⟩
      obtain ⟨c, hc, hskip, d, hparse, hin⟩ :=
        (rowDateFound_iff P _ sd ed df.cols cells).mp hf
      obtain ⟨h1, h2⟩ := (inRange_iff sd ed d).mp hin
      exact ⟨cells, hcells, c, hc, hskip, d, hparse, h1, h2⟩
    · rintro ⟨cells, hcells, c, hc, hskip, d, hparse, h1, h2⟩
      refine ⟨cells, hcells, ?_⟩
      exact (rowDateFound_iff P _ sd ed df.cols cells).mpr
        ⟨c, hc, hskip, d, hparse, (inRange_iff sd ed d).mpr ⟨h1, h2⟩⟩

/-- Witness for C4 at a concrete input: row 0 of the demo dataset is a
date-range match for the bounds [20240101, 20241231], and the "Date"
column is auto-detected. -/
theorem claim_C4_witness :
    (∃ rm ∈ fileMatches demoParser (some 20240101) (some 20241231) none
        demoDF, rm.idx = 0) ∧
      "Date" ∈ potentialDateCols demoParser none demoDF := by
  have h := claim_C4_date_range_membership demoParser [demoDF]
    (some 20240101) (some 20241231) none
  constructor
  · refine (h.2.2.2.2 demoDF 0).mpr ?_
    refine ⟨[Cell.vstr "2024-01-15", Cell.vstr "Bob"], by decide, "Date",
      by decide, by decide, 20240115, by decide, ?_, ?_⟩
    · intro s hs
      cases hs
      decide
    · intro e he
      cases he
      decide
  · exact (h.2.2.2.1 demoDF "Date").mpr
      ⟨by decide, Cell.vstr "2024-01-15", by decide, "2024-01-15", rfl,
        by decide⟩

theorem mem_allCandidateDates (P : DateParser)
    (dateCols : Option (List String)) (dfs : List DataFrame)
    (df : DataFrame) (cells : List Cell) (d : Int) (hdf : df ∈ dfs)
    (hcells : cells ∈ df.rows)
    (hd : d ∈ rowDates P (potentialDateCols P dateCols df) df.cols cells) :
    d ∈ allCandidateDates P dateCols dfs := by
  rw [allCandidateDates, List.mem_flatten]
  refine ⟨dfCandidateDates P dateCols df, List.mem_map.mpr ⟨df, hdf, rfl⟩,
    ?_⟩
  rw [dfCandidateDates, List.mem_flatten]
  exact ⟨_, List.mem_map.mpr ⟨cells, hcells, rfl⟩, hd⟩

theorem rowDateFound_bounds (P : DateParser) (pdcols : List String)
    (cols : List String) (cells : List Cell) (m M : Int)
    (h : ∀ d ∈ rowDates P pdcols cols cells, m ≤ d ∧ d ≤ M) :
    rowDateFound P pdcols none none cols cells =
      rowDateFound P pdcols (some m) (some M) cols cells := by
  rw [Bool.eq_iff_iff, rowDateFound_iff, rowDateFound_iff]
  constructor
  · rintro ⟨c, hc, hskip, d, hparse, _⟩
    have hd : d ∈ rowDates P pdcols cols cells := by
      rw [rowDates, List.mem_filterMap]
      refine ⟨c, hc, ?_⟩
      simp only
      rw [if_neg (by simpa using hskip), hparse]
    obtain ⟨h1, h2⟩ := h d hd
    refine ⟨c, hc, hskip, d, hparse, ?_⟩
    rw [inRange_iff]
    constructor
    · intro s hs
      cases hs
      exact h1
    · intro e he
      cases he
      exact h2
  · rintro ⟨c, hc, hskip, d, hparse, _⟩
    refine ⟨c, hc, hskip, d, hparse, ?_⟩
    rw [inRange_iff]
    constructor
    · intro s hs
      cases hs
    · intro e he
      cases he

theorem fileMatchesAux_congr (P : DateParser) (sd ed sd' ed' : Option Int)
    (dateCols : Option (List String)) (df : DataFrame) :
    ∀ (rows : List (List Cell)) (n : Nat),
      (∀ cells ∈ rows,
        rowDateFound P (potentialDateCols P dateCols df) sd ed df.cols
            cells =
          rowDateFound P (potentialDateCols P dateCols df) sd' ed' df.cols
            cells) →
      fileMatchesAux P sd ed dateCols df n rows =
        fileMatchesAux P sd' ed' dateCols df n rows := by
  intro rows
  induction rows with
  | nil => intro n _; rfl
  | cons cells rest ih =>
    intro n h
    rw [fileMatchesAux, fileMatchesAux]
    rw [h cells (List.mem_cons_self cells rest)]
    rw [ih (n + 1) (fun cs hcs => h cs (List.mem_cons_of_mem cells hcs))]

/-- C8: `date_range_search` with no bounds returns the same results as with
the bounds set to (any) lower and upper bound of all the dates the search
compares — in particular to the dataset's minimum and maximum dates. -/
theorem claim_C8_no_bounds_eq_min_max (P : DateParser)
    (dfs : List DataFrame) (dateCols : Option (List String)) (m M : Int)
    (hm : ∀ d ∈ allCandidateDates P dateCols dfs, m ≤ d)
    (hM : ∀ d ∈ allCandidateDates P dateCols dfs, d ≤ M) :
    dateRangeSearch P dfs none none dateCols =
      dateRangeSearch P dfs (some m) (some M) dateCols := by
  rw [dateRangeSearch, dateRangeSearch]
  apply List.filterMap_congr
  intro df hdf
  have hfm : fileMatches P none none dateCols df =
      fileMatches P (some m) (some M) dateCols df := by
    rw [fileMatches, fileMatches]
    apply fileMatchesAux_congr
    intro cells hcells
    apply rowDateFound_bounds
    intro d hd
    have hmem := mem_allCandidateDates P dateCols dfs df cells d hdf hcells
      hd
    exact ⟨hm d hmem, hM d hmem⟩
  rw [hfm]

/-- Witness for C8 at a concrete input: on the demo dataset the only
compared date is 20240115, and bounding by [20240115, 20240115] changes
nothing. -/
theorem claim_C8_witness :
    dateRangeSearch demoParser [demoDF] none none none =
      dateRangeSearch demoParser [demoDF] (some 20240115) (some 20240115)
        none := by
  exact claim_C8_no_bounds_eq_min_max demoParser [demoDF] none 20240115
    20240115 (by decide) (by decide)

theorem filter_all_true (results : List Record) :
    results.filter (fun _ => true) = results := by
  induction results with
  | nil => rfl
  | cons r rest ih => simp [List.filter_cons, ih]

theorem filterByDateRange_guard (pdParse : Cell → Option Int)
    (results : List Record) (sd ed : Option Int) :
    (if (sd.isSome ∨ ed.isSome) ∧ ¬ results = [] then
      filterByDateRange pdParse results sd ed
    else results) = filterByDateRange pdParse results sd ed := by
  by_cases hg : (sd.isSome ∨ ed.isSome) ∧ ¬ results = []
  · rw [if_pos hg]
  · rw [if_neg hg]
    rw [filterByDateRange]
    rw [if_pos ?_]
    rcases Decidable.not_and_iff_or_not.mp hg with h | h
    · right
      constructor
      · cases sd with
        | none => rfl
        | some s =>
          exfalso
          apply h
          left
          rfl
      · cases ed with
        | none => rfl
        | some e =>
          exfalso
          apply h
          right
          rfl
    · left
      exact Decidable.not_not.mp h

theorem applyFilters_guard (filters : List (String × String))
    (results : List Record) :
    (if ¬ filters = [] ∧ ¬ results = [] then applyFilters filters results
    else results) = applyFilters filters results := by
  by_cases hg : ¬ filters = [] ∧ ¬ results = []
  · rw [if_pos hg]
  · rw [if_neg hg]
    rcases Decidable.not_and_iff_or_not.mp hg with h | h
    · rw [Decidable.not_not.mp h, applyFilters]
      simp only [List.all_nil]
      rw [filter_all_true]
    · rw [Decidable.not_not.mp h, applyFilters, List.filter_nil]

/-- C5: `combined_search` is exactly the three-stage pipeline — exact or
fuzzy search by the query, then date filtering, then the column=substring
filters — and the filters stage keeps a record iff every (column, value)
filter finds its column in the record and its lower-cased value contained
in the lower-cased field value (AND semantics; a record missing a filtered
column is dropped). -/
theorem claim_C5_combined_search_pipeline (pdParse : Cell → Option Int)
    (dfs : List DataFrame) (query : Option String) (fuzzy : Bool)
    (minScore : Nat) (sd ed : Option Int)
    (filters : List (String × String)) (caseSensitive : Bool) :
    combinedSearch pdParse dfs query fuzzy minScore sd ed filters
        caseSensitive =
      applyFilters filters (filterByDateRange pdParse
        (match query with
          | some q =>
            if q = "" then []
            else
              if fuzzy then fuzzySearch dfs q minScore none
              else exactSearch dfs q caseSensitive none
          | none => []) sd ed) ∧
      ∀ rec results, rec ∈ applyFilters filters results ↔
        rec ∈ results ∧ ∀ f ∈ filters, ∃ cell,
          rec.fieldCell f.1 = some cell ∧
            strContains (pyLower cell.text) (pyLower f.2) = true := by
  constructor
  · simp only [combinedSearch]
    rw [filterByDateRange_guard, applyFilters_guard]
  · intro rec results
    rw [applyFilters, List.mem_filter, List.all_eq_true]
    constructor
    · rintro ⟨hmem, hall⟩
      refine ⟨hmem, fun f hf => ?_⟩
      have hm := hall f hf
      rw [matchesFilter] at hm
      cases hcell : rec.fieldCell f.1 with
      | none => rw [hcell] at hm; cases hm
      | some cell =>
        rw [hcell] at hm
        exact ⟨cell, rfl, hm⟩
    · rintro ⟨hmem, hall⟩
      refine ⟨hmem, fun f hf => ?_⟩
      obtain ⟨cell, hcell, hcont⟩ := hall f hf
      rw [matchesFilter, hcell]
      exact hcont

/-- C10: with a missing or empty query, `combined_search` returns the empty
list whatever the bounds and filters are — the date and filter stages only
ever shrink the (empty) search results. -/
theorem claim_C10_empty_query (pdParse : Cell → Option Int)
    (dfs : List DataFrame) (query : Option String) (fuzzy : Bool)
    (minScore : Nat) (sd ed : Option Int)
    (filters : List (String × String)) (caseSensitive : Bool)
    (hq : query = none ∨ query = some "") :
    combinedSearch pdParse dfs query fuzzy minScore sd ed filters
      caseSensitive = [] := by
  rcases hq with h | h <;> subst h <;>
    simp [combinedSearch, filterByDateRange, applyFilters]

/-- Witness for C10 at a concrete input: bounds and a filter alone select
nothing when the query is absent. -/
theorem claim_C10_witness :
    combinedSearch (fun _ => none) [demoDF] none true 70 (some 1) (some 2)
      [("Client", "Bob")] false = [] := by
  exact claim_C10_empty_query (fun _ => none) [demoDF] none true 70
    (some 1) (some 2) [("Client", "Bob")] false (Or.inl rfl)

/-- C6 counterexample: the string field "NA" (a non-numeric value present
in the record) exports as the bare field `NA`, which `read_csv` reads back
as NaN — its string representation "nan" differs from "NA", so the
round-trip loses information on a non-numeric field. -/
theorem claim_C6_counterexample :
    naRec.fieldCell "Code" = some (Cell.vstr "NA") ∧
      exportReloadRows (fun s => Cell.vother s) [naRec] =
        [[("Code", Cell.na), ("file", Cell.vstr "r.csv"),
          ("matching_value", Cell.na)]] ∧
      reloadField (fun s => Cell.vother s)
        (exportedColumnFields [naRec] "Code")
        (exportField naRec "Code") = Cell.na ∧
      ¬ (reloadField (fun s => Cell.vother s)
        (exportedColumnFields [naRec] "Code")
        (exportField naRec "Code")).text = "NA" := by
  decide

/-- C6 amended: the CSV round-trip preserves every present string field
whose value is not an NA sentinel and whose column demonstrably stays
object dtype (some written field of the column fails both numeric and
boolean conversion); NaN and missing fields are written as empty fields
and reload as NaN.  Fields of columns that `read_csv` may convert
wholesale to numbers or booleans (e.g. "01" or "true") are outside the
preserved set — their converted values are the oracle `inferred`'s. -/
theorem claim_C6_amended (inferred : String → Cell)
    (results : List Record) :
    exportReloadRows inferred results = results.map (fun rec =>
      (exportColumns results).map fun c =>
        (c, reloadField inferred (exportedColumnFields results c)
          (exportField rec c))) ∧
      ∀ rec : Record, ∀ colFields : List String, ∀ c v : String,
        (rec.fieldCell c = some (Cell.vstr v) →
          pandasNaTokens.contains v = false →
          columnStaysObject colFields = true →
          reloadField inferred colFields (exportField rec c) =
            Cell.vstr v) ∧
        (rec.fieldCell c = some Cell.na →
          exportField rec c = "" ∧
            reloadField inferred colFields (exportField rec c) =
              Cell.na) := by
  refine ⟨rfl, fun rec colFields c v => ⟨?_, ?_⟩⟩
  · intro hf hna hobj
    have he : exportField rec c = v := by
      rw [exportField, hf]
      rfl
    rw [he, reloadField]
    rw [if_neg (by rw [hna]; exact Bool.false_ne_true), if_pos hobj]
  · intro hf
    have he : exportField rec c = "" := by
      rw [exportField, hf]
    refine ⟨he, ?_⟩
    rw [he, reloadField]
    rw [if_pos (by decide)]

/-- Witness for the amended C6: the field "Bob" (its column stays object
dtype, since "Bob" fails numeric and boolean conversion) survives the
round-trip, and a NaN field is written empty and reloads as NaN. -/
theorem claim_C6_witness :
    reloadField (fun s => Cell.vother s)
        (exportedColumnFields [⟨"r.csv", ["A", "B"],
          [Cell.vstr "Bob", Cell.na], "Bob", none⟩] "A")
        (exportField ⟨"r.csv", ["A", "B"], [Cell.vstr "Bob", Cell.na],
          "Bob", none⟩ "A") = Cell.vstr "Bob" ∧
      exportField ⟨"r.csv", ["A", "B"], [Cell.vstr "Bob", Cell.na],
        "Bob", none⟩ "B" = "" ∧
      reloadField (fun s => Cell.vother s) ["", ""]
        (exportField ⟨"r.csv", ["A", "B"], [Cell.vstr "Bob", Cell.na],
          "Bob", none⟩ "B") = Cell.na := by
  have h := (claim_C6_amended (fun s => Cell.vother s)
    [⟨"r.csv", ["A", "B"], [Cell.vstr "Bob", Cell.na], "Bob", none⟩]).2
  refine ⟨(h _ _ "A" "Bob").1 (by decide) (by decide) (by decide), ?_, ?_⟩
  · exact ((h _ ["", ""] "B" "").2 (by decide)).1
  · exact ((h _ ["", ""] "B" "").2 (by decide)).2

/-- C7 counterexample: from the file `01_15_24.csv` the consolidator
extracts two jobs, and the first one (accumulated before the first
`COMPANY:` marker) carries no `Schedule_Date` field at all, although the
filename-derived ISO date is 2024-01-15.  The last conjunct shows the
merge path of the marker branch: a single pre-marker entry is not flushed
but kept, with the stamped keys added on top of it. -/
theorem claim_C7_counterexample :
    processScheduleFile "fallback" (fun _ => none) (fun _ => none)
        (fun _ => none) "01_15_24.csv" preCompanyRows =
      [[("Time", "9am"), ("Client", "Bob")],
       [("Schedule_Date", "2024-01-15"), ("Source_File", "01_15_24.csv"),
        ("COMPANY", "Acme"), ("Contact", "Sue")]] ∧
      dictHas [("Time", "9am"), ("Client", "Bob")] "Schedule_Date" =
        false ∧
      extractDateFromFilename "fallback" "01_15_24.csv" = "2024-01-15" ∧
      processScheduleFile "fallback" (fun _ => none) (fun _ => none)
          (fun _ => none) "01_15_24.csv" mergedRows =
        [[("Time", "9am"), ("Schedule_Date", "2024-01-15"),
          ("Source_File", "01_15_24.csv"), ("COMPANY", "Acme")]] := by
  decide

theorem dictGet_cons (p : String × String) (rest : List (String × String))
    (k : String) :
    dictGet (p :: rest) k = if p.1 = k then some p.2 else dictGet rest k :=
  rfl

theorem dictGet_dictSet (j : List (String × String)) (k v k' : String) :
    dictGet (dictSet j k v) k' = if k' = k then some v else dictGet j k' := by
  induction j with
  | nil =>
    by_cases h : k' = k
    · rw [if_pos h, dictSet, dictGet_cons, if_pos h.symm]
    · rw [if_neg h, dictSet, dictGet_cons, if_neg (fun hh => h hh.symm)]
  | cons p rest ih =>
    by_cases hp : p.1 = k
    · rw [dictSet, if_pos hp]
      by_cases h : k' = k
      · rw [if_pos h, dictGet_cons, if_pos h.symm]
      · rw [if_neg h, dictGet_cons ⟨k, v⟩ rest k',
          if_neg (fun hh => h hh.symm), dictGet_cons p rest k',
          if_neg (by rw [hp]; exact fun hh => h hh.symm)]
    · rw [dictSet, if_neg hp]
      by_cases h : k' = k
      · have hp' : ¬ p.1 = k' := by
          rw [h]
          exact hp
        rw [if_pos h, dictGet_cons, if_neg hp', ih, if_pos h]
      · by_cases hpk : p.1 = k'
        · rw [if_neg h, dictGet_cons, if_pos hpk, dictGet_cons p rest k',
            if_pos hpk]
        · rw [if_neg h, dictGet_cons, if_neg hpk, ih, if_neg h,
            dictGet_cons p rest k', if_neg hpk]

theorem jobsInv_setCur (schedDate : String)
    (jobs : List (List (String × String))) (cur : List (String × String))
    (k v : String) (hk : ¬ k = "Schedule_Date")
    (h : jobsInv schedDate ⟨jobs, cur⟩) :
    jobsInv schedDate ⟨jobs, dictSet cur k v⟩ := by
  obtain ⟨h1, h2, h3, h4⟩ := h
  have hne : ¬ "Schedule_Date" = k := fun hh => hk hh.symm
  refine ⟨h1, ?_, ?_, h4⟩
  · intro hjobs
    show dictGet (dictSet cur k v) "Schedule_Date" = some schedDate
    rw [dictGet_dictSet, if_neg hne]
    exact h2 hjobs
  · intro v' hv'
    rw [show (⟨jobs, dictSet cur k v⟩ : JobState).cur = dictSet cur k v
        from rfl, dictGet_dictSet, if_neg hne] at hv'
    exact h3 v' hv'

theorem jobsInv_flush (schedDate : String)
    (jobs : List (List (String × String))) (cur : List (String × String))
    (h : jobsInv schedDate ⟨jobs, cur⟩) :
    (∀ j ∈ (if ¬ cur = [] ∧ cur.length > 1 then jobs ++ [cur] else jobs),
      ∀ v, dictGet j "Schedule_Date" = some v → v = schedDate) ∧
    (∀ j ∈ (if ¬ cur = [] ∧ cur.length > 1 then jobs ++ [cur]
        else jobs).drop 1,
      dictGet j "Schedule_Date" = some schedDate) := by
  obtain ⟨h1, h2, h3, h4⟩ := h
  by_cases hflush : ¬ cur = [] ∧ cur.length > 1
  · rw [if_pos hflush]
    constructor
    · intro j hj v hv
      rw [List.mem_append] at hj
      rcases hj with hj | hj
      · exact h4 j hj v hv
      · rw [List.mem_singleton] at hj
        rw [hj] at hv
        exact h3 v hv
    · cases jobs with
      | nil =>
        intro j hj
        simp at hj
      | cons a rest =>
        intro j hj
        have : (a :: rest ++ [cur]).drop 1 = rest ++ [cur] := rfl
        rw [this, List.mem_append] at hj
        rcases hj with hj | hj
        · exact h1 j (by simpa using hj)
        · rw [List.mem_singleton] at hj
          rw [hj]
          exact h2 (by simp)
  · rw [if_neg hflush]
    exact ⟨h4, h1⟩

theorem jobsInv_company (schedDate src : String)
    (jobs : List (List (String × String))) (cur : List (String × String))
    (s : String) (h : jobsInv schedDate ⟨jobs, cur⟩) :
    jobsInv schedDate (companyStep schedDate src ⟨jobs, cur⟩ s) := by
  rw [companyStep]
  by_cases hco : strContains s "COMPANY:"
  · rw [if_pos hco]
    have hcur : ∀ j : List (String × String),
        dictGet (dictSet (dictSet j "Schedule_Date" schedDate)
          "Source_File" src) "Schedule_Date" = some schedDate := by
      intro j
      rw [dictGet_dictSet, if_neg (by decide), dictGet_dictSet,
        if_pos rfl]
    by_cases hflush : ¬ cur = [] ∧ cur.length > 1
    · rw [if_pos hflush]
      have hfl := jobsInv_flush schedDate jobs cur h
      rw [if_pos hflush] at hfl
      refine ⟨hfl.2, fun _ => hcur [], ?_, hfl.1⟩
      intro v hv
      rw [show (⟨jobs ++ [cur],
          dictSet (dictSet [] "Schedule_Date" schedDate) "Source_File"
            src⟩ : JobState).cur =
          dictSet (dictSet [] "Schedule_Date" schedDate) "Source_File" src
          from rfl, hcur []] at hv
      cases hv
      rfl
    · rw [if_neg hflush]
      obtain ⟨h1, _, _, h4⟩ := h
      refine ⟨h1, fun _ => hcur cur, ?_, h4⟩
      intro v hv
      rw [show (⟨jobs,
          dictSet (dictSet cur "Schedule_Date" schedDate) "Source_File"
            src⟩ : JobState).cur =
          dictSet (dictSet cur "Schedule_Date" schedDate) "Source_File" src
          from rfl, hcur cur] at hv
      cases hv
      rfl
  · rw [if_neg hco]
    exact h

theorem jobsInv_kv (schedDate : String)
    (jobs : List (List (String × String))) (cur : List (String × String))
    (s : String)
    (hs : Option.all (fun kv => decide (¬ kv.1 = "Schedule_Date"))
      (cellKV (Cell.vstr s)) = true)
    (h : jobsInv schedDate ⟨jobs, cur⟩) :
    jobsInv schedDate (kvStep ⟨jobs, cur⟩ s) := by
  rw [kvStep]
  cases hkv : cellKV (Cell.vstr s) with
  | none => exact h
  | some kv =>
    rw [hkv] at hs
    simp only [Option.all_some, decide_eq_true_eq] at hs
    exact jobsInv_setCur schedDate jobs cur kv.1 kv.2 hs h

theorem jobsInv_fixedKey (schedDate : String) (st : JobState) (k : String)
    (m : Option String) (hk : ¬ k = "Schedule_Date")
    (h : jobsInv schedDate st) :
    jobsInv schedDate (fixedKeyStep st k m) := by
  cases m with
  | none => exact h
  | some a =>
    show jobsInv schedDate
      (if dictHas st.cur k then st else ⟨st.jobs, dictSet st.cur k a⟩)
    by_cases hhas : dictHas st.cur k
    · rw [if_pos hhas]
      exact h
    · rw [if_neg hhas]
      exact jobsInv_setCur schedDate st.jobs st.cur k a hk
        (by cases st; exact h)

theorem processCell_inv (schedDate src : String)
    (am pm em : String → Option String) (st : JobState) (cell : Cell)
    (hcell : Option.all (fun kv => decide (¬ kv.1 = "Schedule_Date"))
      (cellKV cell) = true)
    (h : jobsInv schedDate st) :
    jobsInv schedDate (processCell schedDate src am pm em st cell) := by
  cases cell with
  | na => exact h
  | vother s => exact h
  | vstr s =>
    show jobsInv schedDate (fixedKeyStep (fixedKeyStep (fixedKeyStep
      (kvStep (companyStep schedDate src st s) s) "Address" (am s))
      "Phone" (pm s)) "Email" (em s))
    apply jobsInv_fixedKey _ _ _ _ (by decide)
    apply jobsInv_fixedKey _ _ _ _ (by decide)
    apply jobsInv_fixedKey _ _ _ _ (by decide)
    have hco : jobsInv schedDate (companyStep schedDate src st s) := by
      cases st with
      | mk jobs cur => exact jobsInv_company schedDate src jobs cur s h
    cases hst : companyStep schedDate src st s with
    | mk jobs1 cur1 =>
      rw [hst] at hco
      exact jobsInv_kv schedDate jobs1 cur1 s hcell hco

theorem processCells_inv (schedDate src : String)
    (am pm em : String → Option String) :
    ∀ (cells : List Cell) (st : JobState),
      (∀ cell ∈ cells,
        Option.all (fun kv => decide (¬ kv.1 = "Schedule_Date"))
          (cellKV cell) = true) →
      jobsInv schedDate st →
      jobsInv schedDate
        (cells.foldl (processCell schedDate src am pm em) st) := by
  intro cells
  induction cells with
  | nil =>
    intro st _ h
    exact h
  | cons cell rest ih =>
    intro st hall h
    rw [List.foldl_cons]
    exact ih _ (fun c hc => hall c (List.mem_cons_of_mem cell hc))
      (processCell_inv schedDate src am pm em st cell
        (hall cell (List.mem_cons_self cell rest)) h)

theorem processRows_inv (schedDate src : String)
    (am pm em : String → Option String) :
    ∀ (rows : List (List Cell)) (st : JobState),
      (∀ row ∈ rows, ¬ row.all (fun cell => cell.isNa) = true) →
      (∀ row ∈ rows, ∀ cell ∈ row,
        Option.all (fun kv => decide (¬ kv.1 = "Schedule_Date"))
          (cellKV cell) = true) →
      jobsInv schedDate st →
      jobsInv schedDate
        (rows.foldl (processRow schedDate src am pm em) st) := by
  intro rows
  induction rows with
  | nil =>
    intro st _ _ h
    exact h
  | cons row rest ih =>
    intro st hna hall h
    rw [List.foldl_cons]
    have hstep : jobsInv schedDate
        (processRow schedDate src am pm em st row) := by
      rw [processRow, if_neg (hna row (List.mem_cons_self row rest))]
      exact processCells_inv schedDate src am pm em row st
        (hall row (List.mem_cons_self row rest)) h
    exact ih _ (fun r hr => hna r (List.mem_cons_of_mem row hr))
      (fun r hr => hall r (List.mem_cons_of_mem row hr)) hstep

/-- C7 amended: provided no cell itself carries a `Schedule_Date: …`
key/value pair, every job the consolidator extracts — except possibly the
one accumulated before the first `COMPANY:` marker, which lacks the field —
carries `Schedule_Date` equal to the date derived from the filename
(`"20YY-MM-DD"` for a basename matching `MM_DD_YY`); any `Schedule_Date`
value that does appear equals that derived date. -/
theorem claim_C7_amended (mtimeFallback : String)
    (addrMatch phoneMatch emailMatch : String → Option String)
    (basename : String) (rows : List (List Cell))
    (hkv : ∀ row ∈ rows, ∀ cell ∈ row,
      Option.all (fun kv => decide (¬ kv.1 = "Schedule_Date"))
        (cellKV cell) = true) :
    (∀ j ∈ processScheduleFile mtimeFallback addrMatch phoneMatch
        emailMatch basename rows,
      ∀ v, dictGet j "Schedule_Date" = some v →
        v = extractDateFromFilename mtimeFallback basename) ∧
      (∀ j ∈ (processScheduleFile mtimeFallback addrMatch phoneMatch
          emailMatch basename rows).drop 1,
        dictGet j "Schedule_Date" =
          some (extractDateFromFilename mtimeFallback basename)) ∧
      ∀ m1 m2 d1 d2 y1 y2 : Char,
        findDatePattern basename.data = some (m1, m2, d1, d2, y1, y2) →
          extractDateFromFilename mtimeFallback basename =
            String.mk ['2', '0', y1, y2, '-', m1, m2, '-', d1, d2] := by
  have hinit : jobsInv (extractDateFromFilename mtimeFallback basename)
      ⟨[], []⟩ := by
    refine ⟨?_, ?_, ?_, ?_⟩
    · intro j hj
      cases hj
    · intro hh
      exact absurd rfl hh
    · intro v hv
      cases hv
    · intro j hj
      cases hj
  have hfold := processRows_inv
    (extractDateFromFilename mtimeFallback basename) basename addrMatch
    phoneMatch emailMatch (dropAllNaRows rows) ⟨[], []⟩
    (fun row hrow => by
      have := List.of_mem_filter hrow
      simpa using this)
    (fun row hrow => hkv row (List.mem_of_mem_filter hrow))
    hinit
  have hunf : processScheduleFile mtimeFallback addrMatch phoneMatch
      emailMatch basename rows =
      (if ¬ ((dropAllNaRows rows).foldl
          (processRow (extractDateFromFilename mtimeFallback basename)
            basename addrMatch phoneMatch emailMatch) ⟨[], []⟩).cur = [] ∧
          ((dropAllNaRows rows).foldl
            (processRow (extractDateFromFilename mtimeFallback basename)
              basename addrMatch phoneMatch emailMatch)
            ⟨[], []⟩).cur.length > 1 then
        ((dropAllNaRows rows).foldl
          (processRow (extractDateFromFilename mtimeFallback basename)
            basename addrMatch phoneMatch emailMatch) ⟨[], []⟩).jobs ++
          [((dropAllNaRows rows).foldl
            (processRow (extractDateFromFilename mtimeFallback basename)
              basename addrMatch phoneMatch emailMatch) ⟨[], []⟩).cur]
      else
        ((dropAllNaRows rows).foldl
          (processRow (extractDateFromFilename mtimeFallback basename)
            basename addrMatch phoneMatch emailMatch) ⟨[], []⟩).jobs) :=
    rfl
  cases hst : (dropAllNaRows rows).foldl
      (processRow (extractDateFromFilename mtimeFallback basename)
        basename addrMatch phoneMatch emailMatch) ⟨[], []⟩ with
  | mk jobs cur =>
    rw [hst] at hfold hunf
    have hflush := jobsInv_flush
      (extractDateFromFilename mtimeFallback basename) jobs cur hfold
    rw [hunf]
    refine ⟨?_, ?_, ?_⟩
    · intro j hj v hv
      exact hflush.1 j hj v hv
    · intro j hj
      exact hflush.2 j hj
    · intro m1 m2 d1 d2 y1 y2 hpat
      simp only [extractDateFromFilename, hpat]

/-- Witness for the amended C7: the job started by the `COMPANY:` marker of
`01_15_24.csv` (the second extracted job) carries
`Schedule_Date = 2024-01-15`. -/
theorem claim_C7_witness :
    dictGet [("Schedule_Date", "2024-01-15"),
      ("Source_File", "01_15_24.csv"), ("COMPANY", "Acme"),
      ("Contact", "Sue")] "Schedule_Date" = some "2024-01-15" := by
  have h := claim_C7_amended "fallback" (fun _ => none) (fun _ => none)
    (fun _ => none) "01_15_24.csv" preCompanyRows (by decide)
  have hd : extractDateFromFilename "fallback" "01_15_24.csv" =
      "2024-01-15" := by decide
  have hmem : [("Schedule_Date", "2024-01-15"),
      ("Source_File", "01_15_24.csv"), ("COMPANY", "Acme"),
      ("Contact", "Sue")] ∈
      (processScheduleFile "fallback" (fun _ => none) (fun _ => none)
        (fun _ => none) "01_15_24.csv" preCompanyRows).drop 1 := by
    decide
  have hres := h.2.1 _ hmem
  rw [hd] at hres
  exact hres
